import Mathlib

/-!
# Verification of the PIP request/response pipeline of `vorot93/openethereum`

A shallow embedding of `ethcore/light/src/types/request/mod.rs` and
`ethcore/light/src/net/error.rs`, together with proofs of the specification's
quantified laws about them.

The wire codec is modelled at the RLP *item tree* level: an item is either a
byte string or a list of items.  Byte strings are lists of naturals (bytes);
integers are encoded big-endian with leading-zero suppression, fixed-width
hashes always carry their exact length, exactly as the `rlp` crate does at the
value layer.
-/

namespace Pip

/-! ## Big-endian byte arithmetic -/

/-- Value of a big-endian byte string (most significant byte first). -/
def bytesToNatBE : List Nat → Nat
  | [] => 0
  | b :: rest => b * 256 ^ rest.length + bytesToNatBE rest

/-- Fuel-driven big-endian expansion (structural recursion, so that concrete
encodings evaluate by `rfl`/`decide`). -/
def natToBytesBEAux : Nat → Nat → List Nat
  | 0, _ => []
  | fuel + 1, n => if n = 0 then [] else natToBytesBEAux fuel (n / 256) ++ [n % 256]

/-- Minimal big-endian byte string of a natural number; zero is the empty
string, mirroring the `rlp` crate's leading-zero suppression. -/
def natToBytesBE (n : Nat) : List Nat := natToBytesBEAux n n

theorem natToBytesBEAux_congr :
    ∀ f1 f2 n : Nat, n ≤ f1 → n ≤ f2 → natToBytesBEAux f1 n = natToBytesBEAux f2 n := by
  intro f1
  induction f1 with
  | zero =>
    intro f2 n h1 _
    interval_cases n
    cases f2 <;> simp [natToBytesBEAux]
  | succ f ih =>
    intro f2 n h1 h2
    cases f2 with
    | zero =>
      interval_cases n
      simp [natToBytesBEAux]
    | succ f2' =>
      simp only [natToBytesBEAux]
      by_cases hn : n = 0
      · simp [hn]
      · have hdiv : n / 256 < n := Nat.div_lt_self (Nat.pos_of_ne_zero hn) (by omega)
        rw [ih f2' (n / 256) (by omega) (by omega)]

/-- The recursive unfolding of `natToBytesBE`. -/
theorem natToBytesBE_eq (n : Nat) :
    natToBytesBE n = if n = 0 then [] else natToBytesBE (n / 256) ++ [n % 256] := by
  by_cases hn : n = 0
  · subst hn; simp [natToBytesBE, natToBytesBEAux]
  · obtain ⟨m, rfl⟩ : ∃ m, n = m + 1 := ⟨n - 1, by omega⟩
    simp only [natToBytesBE, natToBytesBEAux, if_neg hn]
    have hdiv : (m + 1) / 256 < m + 1 := Nat.div_lt_self (by omega) (by omega)
    rw [natToBytesBEAux_congr m ((m + 1) / 256) ((m + 1) / 256) (by omega) (by omega)]

theorem bytesToNatBE_append (xs ys : List Nat) :
    bytesToNatBE (xs ++ ys) = bytesToNatBE xs * 256 ^ ys.length + bytesToNatBE ys := by
  induction xs with
  | nil => simp [bytesToNatBE]
  | cons b rest ih =>
    simp only [List.cons_append, bytesToNatBE, List.length_append, List.append_eq, ih]
    ring

theorem natToBytesBE_zero : natToBytesBE 0 = [] := rfl

theorem bytesToNatBE_natToBytesBE (n : Nat) : bytesToNatBE (natToBytesBE n) = n := by
  induction n using Nat.strong_induction_on with
  | _ n ih =>
    by_cases h : n = 0
    · subst h; simp [natToBytesBE_zero, bytesToNatBE]
    · rw [natToBytesBE_eq, if_neg h, bytesToNatBE_append]
      have := ih (n / 256) (Nat.div_lt_self (Nat.pos_of_ne_zero h) (by omega))
      simp [bytesToNatBE, this]
      omega

theorem natToBytesBE_eq_nil_iff (n : Nat) : natToBytesBE n = [] ↔ n = 0 := by
  constructor
  · intro h
    by_contra hn
    rw [natToBytesBE_eq, if_neg hn] at h
    simp at h
  · rintro rfl; exact natToBytesBE_zero

theorem natToBytesBE_length_le (w n : Nat) (h : n < 256 ^ w) :
    (natToBytesBE n).length ≤ w := by
  induction w generalizing n with
  | zero =>
    simp only [pow_zero, Nat.lt_one_iff] at h
    subst h; simp [natToBytesBE_zero]
  | succ w ih =>
    by_cases hn : n = 0
    · subst hn; simp [natToBytesBE_zero]
    · rw [natToBytesBE_eq, if_neg hn]
      simp only [List.length_append, List.length_singleton]
      have : n / 256 < 256 ^ w := by
        rw [pow_succ] at h
        exact Nat.div_lt_of_lt_mul (by omega)
      have := ih (n / 256) this
      omega

theorem bytesToNatBE_lt (s : List Nat) (hb : ∀ b ∈ s, b < 256) :
    bytesToNatBE s < 256 ^ s.length := by
  induction s with
  | nil => simp [bytesToNatBE]
  | cons b rest ih =>
    simp only [bytesToNatBE, List.length_cons]
    have hb' : b < 256 := hb b (List.mem_cons_self b rest)
    have hr : bytesToNatBE rest < 256 ^ rest.length :=
      ih (fun x hx => hb x (List.mem_cons_of_mem b hx))
    calc b * 256 ^ rest.length + bytesToNatBE rest
        < b * 256 ^ rest.length + 256 ^ rest.length := by omega
      _ = (b + 1) * 256 ^ rest.length := by ring
      _ ≤ 256 * 256 ^ rest.length := by
          exact Nat.mul_le_mul_right _ (by omega)
      _ = 256 ^ (rest.length + 1) := by ring

theorem natToBytesBE_bytes_lt (n : Nat) : ∀ b ∈ natToBytesBE n, b < 256 := by
  induction n using Nat.strong_induction_on with
  | _ n ih =>
    by_cases h : n = 0
    · subst h; simp [natToBytesBE_zero]
    · rw [natToBytesBE_eq, if_neg h]
      intro b hb
      rcases List.mem_append.mp hb with h1 | h2
      · exact ih (n / 256) (Nat.div_lt_self (Nat.pos_of_ne_zero h) (by omega)) b h1
      · simp only [List.mem_singleton] at h2
        subst h2
        exact Nat.mod_lt _ (by omega)

theorem natToBytesBE_head_ne_zero (n : Nat) :
    (natToBytesBE n).head? ≠ some 0 := by
  induction n using Nat.strong_induction_on with
  | _ n ih =>
    by_cases h : n = 0
    · subst h; simp [natToBytesBE_zero]
    · rw [natToBytesBE_eq, if_neg h]
      by_cases hd : n / 256 = 0
      · have hlt : n < 256 := by
          have := Nat.div_eq_of_lt (a := n) (b := 256)
          rcases Nat.lt_or_ge n 256 with hc | hc
          · exact hc
          · exfalso
            have : 256 / 256 ≤ n / 256 := Nat.div_le_div_right hc
            simp at this
            omega
        rw [hd, natToBytesBE_zero]
        simp only [List.nil_append, List.head?_cons, ne_eq, Option.some.injEq]
        omega
      · have hne : natToBytesBE (n / 256) ≠ [] := by
          rw [ne_eq, natToBytesBE_eq_nil_iff]; exact hd
        obtain ⟨a, rest, he⟩ := List.exists_cons_of_ne_nil hne
        have ihd := ih (n / 256) (Nat.div_lt_self (Nat.pos_of_ne_zero h) (by omega))
        rw [he]
        rw [he] at ihd
        simpa using ihd

/-! ## The RLP item tree and the value-layer codecs of the `rlp` crate

The `rlp` crate itself is not part of the excerpt; following the spec's §4.1
(a recursive format with two node shapes, byte string and list of nodes) we
model a wire node as an `RlpItem` and the crate's value-layer accessors
(`val_at`, `at`, `as_val`, `data`, integer and hash decoding) over it. -/

/-- An RLP node: a byte string or a list of nodes (spec §4.1). -/
inductive RlpItem where
  | str (data : List Nat)
  | list (items : List RlpItem)

/-- Decoder errors, mirroring `rlp::DecoderError`. -/
inductive DecoderError where
  | RlpIsTooShort
  | RlpIsTooBig
  | RlpExpectedToBeList
  | RlpExpectedToBeData
  | RlpInvalidIndirection
  | RlpInvalidLength
  | RlpIncorrectListLen
  | Custom (msg : String)
deriving DecidableEq

abbrev DecResult (α : Type) := Except DecoderError α

/-- `rlp.at(i)`: the `i`-th element of a list node. -/
def RlpItem.getAt (it : RlpItem) (i : Nat) : DecResult RlpItem :=
  match it with
  | .str _ => .error .RlpExpectedToBeList
  | .list items =>
    match items.get? i with
    | some x => .ok x
    | none => .error .RlpIsTooShort

/-- `rlp.val_at::<T>(i)`: decode the `i`-th element of a list node. -/
def valAt (dec : RlpItem → DecResult α) (it : RlpItem) (i : Nat) : DecResult α :=
  match it.getAt i with
  | .ok x => dec x
  | .error e => .error e

/-- Whether an item is a list node. -/
def RlpItem.isList : RlpItem → Bool
  | .str _ => false
  | .list _ => true

/-- Encoding of an unsigned integer: minimal big-endian byte string. -/
def encodeNat (n : Nat) : RlpItem := .str (natToBytesBE n)

/-- Decoding of an unsigned integer of width at most `w` bytes, as the `rlp`
crate's `decode_usize`-style decoders do: the node must be a byte string with
no leading zero and length at most `w`.  (The byte-range side condition is
vacuous for real byte strings and is used here to bound the result.) -/
def decodeUIntFin (w : Nat) (it : RlpItem) : DecResult (Fin (256 ^ w)) :=
  match it with
  | .list _ => .error .RlpExpectedToBeData
  | .str s =>
    if s.head? = some 0 then .error .RlpInvalidIndirection
    else if hw : s.length ≤ w then
      if hb : ∀ b ∈ s, b < 256 then
        .ok ⟨bytesToNatBE s, lt_of_lt_of_le (bytesToNatBE_lt s hb)
          (Nat.pow_le_pow_right (by omega) hw)⟩
      else .error .RlpInvalidLength
    else .error .RlpIsTooBig

/-- Encoding of a `w`-byte fixed-width hash: exactly `w` bytes, big-endian. -/
def encodeHashFin (w : Nat) (n : Fin (256 ^ w)) : RlpItem :=
  .str (List.replicate (w - (natToBytesBE n.val).length) 0 ++ natToBytesBE n.val)

/-- Decoding of a `w`-byte fixed-width hash: the node must be a byte string of
exactly `w` bytes (`H256`/`H160` decoding in `ethereum-types`). -/
def decodeHashFin (w : Nat) (it : RlpItem) : DecResult (Fin (256 ^ w)) :=
  match it with
  | .list _ => .error .RlpExpectedToBeData
  | .str s =>
    if s.length < w then .error .RlpIsTooShort
    else if hg : w < s.length then .error .RlpIsTooBig
    else if hb : ∀ b ∈ s, b < 256 then
      .ok ⟨bytesToNatBE s, lt_of_lt_of_le (bytesToNatBE_lt s hb)
        (Nat.pow_le_pow_right (by omega) (by omega))⟩
    else .error .RlpInvalidLength

/-- Encoding of a variable-length byte string (`Bytes`). -/
def encodeBytes (s : List Nat) : RlpItem := .str s

/-- `rlp.as_val::<Vec<u8>>()` / `rlp.data()`: the node must be a byte string. -/
def decodeBytes : RlpItem → DecResult (List Nat)
  | .str s => .ok s
  | .list _ => .error .RlpExpectedToBeData

/-- Encoding of a `bool`: as the integers 0 and 1. -/
def encodeBool : Bool → RlpItem
  | false => .str []
  | true => .str [1]

/-- Decoding of a `bool`: a byte string of length at most one. -/
def decodeBool : RlpItem → DecResult Bool
  | .str [] => .ok false
  | .str [b] => .ok (b != 0)
  | .str _ => .error .RlpIsTooBig
  | .list _ => .error .RlpExpectedToBeData

/-- Encoding of a list of byte strings (`Vec<Bytes>`). -/
def encodeBytesList (l : List (List Nat)) : RlpItem := .list (l.map RlpItem.str)

/-- Element-wise decoding of a list of byte strings. -/
def decodeBytesEach : List RlpItem → DecResult (List (List Nat))
  | [] => .ok []
  | it :: rest =>
    match decodeBytes it with
    | .error e => .error e
    | .ok b =>
      match decodeBytesEach rest with
      | .error e => .error e
      | .ok bs => .ok (b :: bs)

/-- `rlp.list_at::<Vec<u8>>(..)`-style decoding of a list of byte strings. -/
def decodeBytesList : RlpItem → DecResult (List (List Nat))
  | .str _ => .error .RlpExpectedToBeList
  | .list items => decodeBytesEach items

/-! ### Round trips of the leaf codecs -/

theorem decodeUIntFin_encodeNat {w n : Nat} (h : n < 256 ^ w) :
    decodeUIntFin w (encodeNat n) = .ok ⟨n, h⟩ := by
  simp only [decodeUIntFin, encodeNat]
  rw [if_neg (natToBytesBE_head_ne_zero n),
    dif_pos (natToBytesBE_length_le w n h),
    dif_pos (natToBytesBE_bytes_lt n)]
  simp [bytesToNatBE_natToBytesBE]

theorem decodeUIntFin_encode (w : Nat) (n : Fin (256 ^ w)) :
    decodeUIntFin w (encodeNat n.val) = .ok n :=
  (decodeUIntFin_encodeNat n.isLt).trans (by simp)

theorem encodeHashFin_length (w : Nat) (n : Fin (256 ^ w)) :
    (List.replicate (w - (natToBytesBE n.val).length) 0 ++ natToBytesBE n.val).length = w := by
  have := natToBytesBE_length_le w n.val n.isLt
  simp [List.length_append, List.length_replicate]
  omega

theorem decodeHashFin_encode (w : Nat) (n : Fin (256 ^ w)) :
    decodeHashFin w (encodeHashFin w n) = .ok n := by
  simp only [decodeHashFin, encodeHashFin]
  rw [if_neg (by rw [encodeHashFin_length]; omega),
    dif_neg (by rw [encodeHashFin_length]; omega)]
  rw [dif_pos]
  · congr 1
    apply Fin.ext
    simp only [bytesToNatBE_append, bytesToNatBE]
    have hz : bytesToNatBE (List.replicate (w - (natToBytesBE n.val).length) 0) = 0 := by
      induction (w - (natToBytesBE n.val).length) with
      | zero => simp [bytesToNatBE]
      | succ k ih => simp [List.replicate, bytesToNatBE, ih]
    rw [hz, bytesToNatBE_natToBytesBE]
    simp
  · intro b hb
    rcases List.mem_append.mp hb with h1 | h2
    · have := List.eq_of_mem_replicate h1
      omega
    · exact natToBytesBE_bytes_lt n.val b h2

theorem decodeBytes_encode (s : List Nat) : decodeBytes (encodeBytes s) = .ok s := rfl

theorem decodeBool_encode (b : Bool) : decodeBool (encodeBool b) = .ok b := by
  cases b <;> rfl

theorem decodeBytesEach_map (l : List (List Nat)) :
    decodeBytesEach (l.map RlpItem.str) = .ok l := by
  induction l with
  | nil => rfl
  | cons x rest ih => simp [decodeBytesEach, decodeBytes, ih]

theorem decodeBytesList_encode (l : List (List Nat)) :
    decodeBytesList (encodeBytesList l) = .ok l := by
  simp [decodeBytesList, encodeBytesList, decodeBytesEach_map]

/-- Encoding of a `HashOrNumber` number form never has 32 bytes (it is at most
8 bytes long), so hash decoding of it fails with `RlpIsTooShort`. -/
theorem decodeHashFin_encodeNat_short {n : Nat} (h : n < 256 ^ 8) :
    decodeHashFin 32 (encodeNat n) = .error .RlpIsTooShort := by
  have := natToBytesBE_length_le 8 n h
  simp only [decodeHashFin, encodeNat]
  rw [if_pos (by omega)]

/-! ## The data model of `ethcore/light/src/types/request/mod.rs` -/

/-- 64-bit unsigned integers (`u64`, and `usize` on a 64-bit target). -/
abbrev W64 := Fin (256 ^ 8)

/-- 256-bit unsigned big integers (`U256`). -/
abbrev W256 := Fin (256 ^ 32)

/-- 32-byte hashes (`H256`), as their big-endian value. -/
abbrev H256 := Fin (256 ^ 32)

/-- 20-byte addresses (`Address` = `H160`), as their big-endian value. -/
abbrev H160 := Fin (256 ^ 20)

/-- Variable-length byte strings (`Bytes`, `DBValue`). -/
abbrev Bytes := List Nat

/-- Error indicating a reference to a non-existent or wrongly-typed output. -/
inductive NoSuchOutput where
  | mk
deriving DecidableEq

/-- An input to a request: a pre-specified scalar, or a back-reference
`(request index, output index)` resolvable later. -/
inductive Field (T : Type) where
  | Scalar (val : T)
  | BackReference (reqIdx outIdx : W64)
deriving DecidableEq

/-- `Field::map`: lift a function over the scalar variant. -/
def Field.map (f : T → U) : Field T → Field U
  | .Scalar x => .Scalar (f x)
  | .BackReference req idx => .BackReference req idx

/-- `Field::into_scalar`: extract the scalar or fail with `NoSuchOutput`. -/
def Field.into_scalar : Field T → Except NoSuchOutput T
  | .Scalar val => .ok val
  | _ => .error .mk

/-- `Field::adjust_req`: rewrite the request-index component of a
back-reference by the mapping. -/
def Field.adjust_req (mapping : W64 → W64) : Field T → Field T
  | .BackReference reqIdx idx => .BackReference (mapping reqIdx) idx
  | f => f

/-- `Field::adjust_req` leaves a scalar unchanged (the catch-all arm). -/
theorem Field.adjust_req_scalar (mapping : W64 → W64) (v : T) :
    Field.adjust_req mapping (Field.Scalar v) = Field.Scalar v := rfl

/-- Request outputs which can be reused as inputs. -/
inductive Output where
  | Hash (h : H256)
  | Number (n : W64)
deriving DecidableEq

/-- Response output kinds which can be used as back-references. -/
inductive OutputKind where
  | Hash
  | Number
deriving DecidableEq

/-- `Output::kind`. -/
def Output.kind : Output → OutputKind
  | .Hash _ => .Hash
  | .Number _ => .Number

/-- Either a hash or a number. -/
inductive HashOrNumber where
  | Hash (h : H256)
  | Number (n : W64)
deriving DecidableEq

/-- `From<H256> for HashOrNumber` (`hash.into()`). -/
def HashOrNumber.ofHash (h : H256) : HashOrNumber := .Hash h

/-- `From<u64> for HashOrNumber` (`num.into()`). -/
def HashOrNumber.ofNumber (n : W64) : HashOrNumber := .Number n

/-- Kinds of requests; doubles as the wire "ID" of the request. -/
inductive Kind where
  | Headers
  | HeaderProof
  | TransactionIndex
  | Receipts
  | Body
  | Account
  | Storage
  | Code
  | Execution
  | Signal
deriving DecidableEq

/-- The wire tag of a `Kind` (its `#[repr(u8)]` discriminant, 0..9). -/
def Kind.tag : Kind → Nat
  | .Headers => 0
  | .HeaderProof => 1
  | .TransactionIndex => 2
  | .Receipts => 3
  | .Body => 4
  | .Account => 5
  | .Storage => 6
  | .Code => 7
  | .Execution => 8
  | .Signal => 9

/-- Modelled from the spec: `common_types::transaction::Action` is not part of
the excerpt.  The spec (§3) gives `action: {Create | Call(Address)}`; on the
wire `Create` is the empty byte string and `Call` the 20-byte address. -/
inductive Action where
  | Create
  | Call (addr : H160)
deriving DecidableEq

/-- The back-reference oracle handed to `fill`: `(request index, output
index) → Output | NoSuchOutput`. -/
abbrev Oracle := W64 → W64 → Except NoSuchOutput Output

namespace header

/-- Potentially incomplete headers request. -/
structure Incomplete where
  start : Field HashOrNumber
  skip : W64
  max : W64
  reverse : Bool
deriving DecidableEq

/-- A complete headers request. -/
structure Complete where
  start : HashOrNumber
  skip : W64
  max : W64
  reverse : Bool
deriving DecidableEq

/-- The output of a request for headers: `Vec<encoded::Header>`, raw header
blobs modelled as the RLP items they frame. -/
structure Response where
  headers : List RlpItem

end header

namespace header_proof

/-- Potentially incomplete header proof request. -/
structure Incomplete where
  num : Field W64
deriving DecidableEq

/-- A complete header proof request. -/
structure Complete where
  num : W64
deriving DecidableEq

/-- The output of a request for a header proof. -/
structure Response where
  proof : List Bytes
  hash : H256
  td : W256
deriving DecidableEq

end header_proof

namespace transaction_index

/-- Potentially incomplete transaction index request. -/
structure Incomplete where
  hash : Field H256
deriving DecidableEq

/-- A complete transaction index request. -/
structure Complete where
  hash : H256
deriving DecidableEq

/-- The output of a request for a transaction index. -/
structure Response where
  num : W64
  hash : H256
  index : W64
deriving DecidableEq

end transaction_index

namespace block_receipts

/-- Potentially incomplete block receipts request. -/
structure Incomplete where
  hash : Field H256
deriving DecidableEq

/-- A complete block receipts request. -/
structure Complete where
  hash : H256
deriving DecidableEq

/-- Modelled from the spec: `common_types::receipt::Receipt` is not part of
the excerpt; the spec (§3) describes the receipts response only as a "list of
receipts", so a receipt is modelled as the RLP item that encodes it. -/
def Receipt := RlpItem

/-- The output of a request for block receipts. -/
structure Response where
  receipts : List Receipt

end block_receipts

namespace block_body

/-- Potentially incomplete block body request. -/
structure Incomplete where
  hash : Field H256
deriving DecidableEq

/-- A complete block body request. -/
structure Complete where
  hash : H256
deriving DecidableEq

/-- The output of a request for a block body: `encoded::Body`, a raw blob
modelled as the RLP item it frames. -/
structure Response where
  body : RlpItem

end block_body

namespace account

/-- Potentially incomplete request for an account proof. -/
structure Incomplete where
  block_hash : Field H256
  address_hash : Field H256
deriving DecidableEq

/-- A complete request for an account. -/
structure Complete where
  block_hash : H256
  address_hash : H256
deriving DecidableEq

/-- The output of a request for an account state proof. -/
structure Response where
  proof : List Bytes
  nonce : W256
  balance : W256
  code_hash : H256
  storage_root : H256
deriving DecidableEq

end account

namespace storage

/-- Potentially incomplete request for a storage proof. -/
structure Incomplete where
  block_hash : Field H256
  address_hash : Field H256
  key_hash : Field H256
deriving DecidableEq

/-- A complete request for a storage proof. -/
structure Complete where
  block_hash : H256
  address_hash : H256
  key_hash : H256
deriving DecidableEq

/-- The output of a request for a storage proof. -/
structure Response where
  proof : List Bytes
  value : H256
deriving DecidableEq

end storage

namespace contract_code

/-- Potentially incomplete contract code request. -/
structure Incomplete where
  block_hash : Field H256
  code_hash : Field H256
deriving DecidableEq

/-- A complete contract code request. -/
structure Complete where
  block_hash : H256
  code_hash : H256
deriving DecidableEq

/-- The output of a request for contract code. -/
structure Response where
  code : Bytes
deriving DecidableEq

end contract_code

namespace execution

/-- Potentially incomplete execution proof request. -/
structure Incomplete where
  block_hash : Field H256
  from_addr : H160
  action : Action
  gas : W256
  gas_price : W256
  value : W256
  data : Bytes
deriving DecidableEq

/-- A complete execution proof request. -/
structure Complete where
  block_hash : H256
  from_addr : H160
  action : Action
  gas : W256
  gas_price : W256
  value : W256
  data : Bytes
deriving DecidableEq

/-- The output of a request for proof of execution: `Vec<DBValue>`. -/
structure Response where
  items : List Bytes
deriving DecidableEq

end execution

namespace epoch_signal

/-- Potentially incomplete epoch signal request. -/
structure Incomplete where
  block_hash : Field H256
deriving DecidableEq

/-- A complete epoch signal request. -/
structure Complete where
  block_hash : H256
deriving DecidableEq

/-- The output of a request for an epoch signal. -/
structure Response where
  signal : Bytes
deriving DecidableEq

end epoch_signal

/-- All request types, as they're sent over the network; possibly incomplete,
with back-references to outputs of prior requests. -/
inductive Request where
  | Headers (r : header.Incomplete)
  | HeaderProof (r : header_proof.Incomplete)
  | TransactionIndex (r : transaction_index.Incomplete)
  | Receipts (r : block_receipts.Incomplete)
  | Body (r : block_body.Incomplete)
  | Account (r : account.Incomplete)
  | Storage (r : storage.Incomplete)
  | Code (r : contract_code.Incomplete)
  | Execution (r : execution.Incomplete)
  | Signal (r : epoch_signal.Incomplete)
deriving DecidableEq

/-- All request types, in an answerable state. -/
inductive CompleteRequest where
  | Headers (r : header.Complete)
  | HeaderProof (r : header_proof.Complete)
  | TransactionIndex (r : transaction_index.Complete)
  | Receipts (r : block_receipts.Complete)
  | Body (r : block_body.Complete)
  | Account (r : account.Complete)
  | Storage (r : storage.Complete)
  | Code (r : contract_code.Complete)
  | Execution (r : execution.Complete)
  | Signal (r : epoch_signal.Complete)
deriving DecidableEq

/-- All response types. -/
inductive Response where
  | Headers (r : header.Response)
  | HeaderProof (r : header_proof.Response)
  | TransactionIndex (r : transaction_index.Response)
  | Receipts (r : block_receipts.Response)
  | Body (r : block_body.Response)
  | Account (r : account.Response)
  | Storage (r : storage.Response)
  | Code (r : contract_code.Response)
  | Execution (r : execution.Response)
  | Signal (r : epoch_signal.Response)

/-- `Request::kind`. -/
def Request.kind : Request → Kind
  | .Headers _ => .Headers
  | .HeaderProof _ => .HeaderProof
  | .TransactionIndex _ => .TransactionIndex
  | .Receipts _ => .Receipts
  | .Body _ => .Body
  | .Account _ => .Account
  | .Storage _ => .Storage
  | .Code _ => .Code
  | .Execution _ => .Execution
  | .Signal _ => .Signal

/-- `CompleteRequest::kind`. -/
def CompleteRequest.kind : CompleteRequest → Kind
  | .Headers _ => .Headers
  | .HeaderProof _ => .HeaderProof
  | .TransactionIndex _ => .TransactionIndex
  | .Receipts _ => .Receipts
  | .Body _ => .Body
  | .Account _ => .Account
  | .Storage _ => .Storage
  | .Code _ => .Code
  | .Execution _ => .Execution
  | .Signal _ => .Signal

/-! ## The four uniform operations, per kind (from the source `impl`s) -/

namespace header

/-- `header::Incomplete::note_outputs`: headers declare no outputs. -/
def note_outputs (_ : Incomplete) : List (Nat × OutputKind) := []

/-- `header::Incomplete::fill`: a back-referenced `start` accepts either a
hash or a number output, converted via `HashOrNumber`. -/
def fill (oracle : Oracle) (r : Incomplete) : Incomplete :=
  match r.start with
  | .BackReference req idx =>
    { r with start :=
        match oracle req idx with
        | .ok (.Hash hash) => .Scalar (HashOrNumber.ofHash hash)
        | .ok (.Number num) => .Scalar (HashOrNumber.ofNumber num)
        | .error _ => .BackReference req idx }
  | _ => r

/-- `header::Incomplete::complete`. -/
def complete (r : Incomplete) : Except NoSuchOutput Complete :=
  match r.start.into_scalar with
  | .error e => .error e
  | .ok start => .ok ⟨start, r.skip, r.max, r.reverse⟩

/-- `header::Incomplete::adjust_refs`. -/
def adjust_refs (mapping : W64 → W64) (r : Incomplete) : Incomplete :=
  { r with start := r.start.adjust_req mapping }

/-- `header::Response::fill_outputs`: nothing. -/
def fill_outputs (_ : Response) : List (Nat × Output) := []

end header

namespace header_proof

/-- `header_proof::Incomplete::note_outputs`: slot 0 is a hash. -/
def note_outputs (_ : Incomplete) : List (Nat × OutputKind) := [(0, .Hash)]

/-- `header_proof::Incomplete::fill`: only a number output resolves `num`. -/
def fill (oracle : Oracle) (r : Incomplete) : Incomplete :=
  match r.num with
  | .BackReference req idx =>
    { r with num :=
        match oracle req idx with
        | .ok (.Number num) => .Scalar num
        | _ => .BackReference req idx }
  | _ => r

/-- `header_proof::Incomplete::complete`. -/
def complete (r : Incomplete) : Except NoSuchOutput Complete :=
  match r.num.into_scalar with
  | .error e => .error e
  | .ok num => .ok ⟨num⟩

/-- `header_proof::Incomplete::adjust_refs`. -/
def adjust_refs (mapping : W64 → W64) (r : Incomplete) : Incomplete :=
  { r with num := r.num.adjust_req mapping }

/-- `header_proof::Response::fill_outputs`: slot 0 gets the proved hash. -/
def fill_outputs (r : Response) : List (Nat × Output) := [(0, .Hash r.hash)]

end header_proof

namespace transaction_index

/-- `transaction_index::Incomplete::note_outputs`: number then hash. -/
def note_outputs (_ : Incomplete) : List (Nat × OutputKind) :=
  [(0, .Number), (1, .Hash)]

/-- `transaction_index::Incomplete::fill`. -/
def fill (oracle : Oracle) (r : Incomplete) : Incomplete :=
  match r.hash with
  | .BackReference req idx =>
    { r with hash :=
        match oracle req idx with
        | .ok (.Hash hash) => .Scalar hash
        | _ => .BackReference req idx }
  | _ => r

/-- `transaction_index::Incomplete::complete`. -/
def complete (r : Incomplete) : Except NoSuchOutput Complete :=
  match r.hash.into_scalar with
  | .error e => .error e
  | .ok hash => .ok ⟨hash⟩

/-- `transaction_index::Incomplete::adjust_refs`. -/
def adjust_refs (mapping : W64 → W64) (r : Incomplete) : Incomplete :=
  { r with hash := r.hash.adjust_req mapping }

/-- `transaction_index::Response::fill_outputs`: number then hash. -/
def fill_outputs (r : Response) : List (Nat × Output) :=
  [(0, .Number r.num), (1, .Hash r.hash)]

end transaction_index

namespace block_receipts

/-- `block_receipts::Incomplete::note_outputs`: nothing. -/
def note_outputs (_ : Incomplete) : List (Nat × OutputKind) := []

/-- `block_receipts::Incomplete::fill`. -/
def fill (oracle : Oracle) (r : Incomplete) : Incomplete :=
  match r.hash with
  | .BackReference req idx =>
    { r with hash :=
        match oracle req idx with
        | .ok (.Hash hash) => .Scalar hash
        | _ => .BackReference req idx }
  | _ => r

/-- `block_receipts::Incomplete::complete`. -/
def complete (r : Incomplete) : Except NoSuchOutput Complete :=
  match r.hash.into_scalar with
  | .error e => .error e
  | .ok hash => .ok ⟨hash⟩

/-- `block_receipts::Incomplete::adjust_refs`. -/
def adjust_refs (mapping : W64 → W64) (r : Incomplete) : Incomplete :=
  { r with hash := r.hash.adjust_req mapping }

/-- `block_receipts::Response::fill_outputs`: nothing. -/
def fill_outputs (_ : Response) : List (Nat × Output) := []

end block_receipts

namespace block_body

/-- `block_body::Incomplete::note_outputs`: nothing. -/
def note_outputs (_ : Incomplete) : List (Nat × OutputKind) := []

/-- `block_body::Incomplete::fill`. -/
def fill (oracle : Oracle) (r : Incomplete) : Incomplete :=
  match r.hash with
  | .BackReference req idx =>
    { r with hash :=
        match oracle req idx with
        | .ok (.Hash hash) => .Scalar hash
        | _ => .BackReference req idx }
  | _ => r

/-- `block_body::Incomplete::complete`. -/
def complete (r : Incomplete) : Except NoSuchOutput Complete :=
  match r.hash.into_scalar with
  | .error e => .error e
  | .ok hash => .ok ⟨hash⟩

/-- `block_body::Incomplete::adjust_refs`. -/
def adjust_refs (mapping : W64 → W64) (r : Incomplete) : Incomplete :=
  { r with hash := r.hash.adjust_req mapping }

/-- `block_body::Response::fill_outputs`: nothing. -/
def fill_outputs (_ : Response) : List (Nat × Output) := []

end block_body

namespace account

/-- `account::Incomplete::note_outputs`: code hash then storage root. -/
def note_outputs (_ : Incomplete) : List (Nat × OutputKind) :=
  [(0, .Hash), (1, .Hash)]

/-- `account::Incomplete::fill`: block hash then address hash. -/
def fill (oracle : Oracle) (r : Incomplete) : Incomplete :=
  let r :=
    match r.block_hash with
    | .BackReference req idx =>
      { r with block_hash :=
          match oracle req idx with
          | .ok (.Hash h) => .Scalar h
          | _ => .BackReference req idx }
    | _ => r
  match r.address_hash with
  | .BackReference req idx =>
    { r with address_hash :=
        match oracle req idx with
        | .ok (.Hash h) => .Scalar h
        | _ => .BackReference req idx }
  | _ => r

/-- `account::Incomplete::complete`. -/
def complete (r : Incomplete) : Except NoSuchOutput Complete :=
  match r.block_hash.into_scalar with
  | .error e => .error e
  | .ok block_hash =>
    match r.address_hash.into_scalar with
    | .error e => .error e
    | .ok address_hash => .ok ⟨block_hash, address_hash⟩

/-- `account::Incomplete::adjust_refs`. -/
def adjust_refs (mapping : W64 → W64) (r : Incomplete) : Incomplete :=
  { r with block_hash := r.block_hash.adjust_req mapping,
           address_hash := r.address_hash.adjust_req mapping }

/-- `account::Response::fill_outputs`: code hash then storage root. -/
def fill_outputs (r : Response) : List (Nat × Output) :=
  [(0, .Hash r.code_hash), (1, .Hash r.storage_root)]

end account

namespace storage

/-- `storage::Incomplete::note_outputs`: the stored value's hash. -/
def note_outputs (_ : Incomplete) : List (Nat × OutputKind) := [(0, .Hash)]

/-- `storage::Incomplete::fill`: block, address, then key hash. -/
def fill (oracle : Oracle) (r : Incomplete) : Incomplete :=
  let r :=
    match r.block_hash with
    | .BackReference req idx =>
      { r with block_hash :=
          match oracle req idx with
          | .ok (.Hash h) => .Scalar h
          | _ => .BackReference req idx }
    | _ => r
  let r :=
    match r.address_hash with
    | .BackReference req idx =>
      { r with address_hash :=
          match oracle req idx with
          | .ok (.Hash h) => .Scalar h
          | _ => .BackReference req idx }
    | _ => r
  match r.key_hash with
  | .BackReference req idx =>
    { r with key_hash :=
        match oracle req idx with
        | .ok (.Hash h) => .Scalar h
        | _ => .BackReference req idx }
  | _ => r

/-- `storage::Incomplete::complete`. -/
def complete (r : Incomplete) : Except NoSuchOutput Complete :=
  match r.block_hash.into_scalar with
  | .error e => .error e
  | .ok block_hash =>
    match r.address_hash.into_scalar with
    | .error e => .error e
    | .ok address_hash =>
      match r.key_hash.into_scalar with
      | .error e => .error e
      | .ok key_hash => .ok ⟨block_hash, address_hash, key_hash⟩

/-- `storage::Incomplete::adjust_refs`. -/
def adjust_refs (mapping : W64 → W64) (r : Incomplete) : Incomplete :=
  { r with block_hash := r.block_hash.adjust_req mapping,
           address_hash := r.address_hash.adjust_req mapping,
           key_hash := r.key_hash.adjust_req mapping }

/-- `storage::Response::fill_outputs`: the stored value. -/
def fill_outputs (r : Response) : List (Nat × Output) := [(0, .Hash r.value)]

end storage

namespace contract_code

/-- `contract_code::Incomplete::note_outputs`: nothing. -/
def note_outputs (_ : Incomplete) : List (Nat × OutputKind) := []

/-- `contract_code::Incomplete::fill`: block hash then code hash. -/
def fill (oracle : Oracle) (r : Incomplete) : Incomplete :=
  let r :=
    match r.block_hash with
    | .BackReference req idx =>
      { r with block_hash :=
          match oracle req idx with
          | .ok (.Hash h) => .Scalar h
          | _ => .BackReference req idx }
    | _ => r
  match r.code_hash with
  | .BackReference req idx =>
    { r with code_hash :=
        match oracle req idx with
        | .ok (.Hash h) => .Scalar h
        | _ => .BackReference req idx }
  | _ => r

/-- `contract_code::Incomplete::complete`. -/
def complete (r : Incomplete) : Except NoSuchOutput Complete :=
  match r.block_hash.into_scalar with
  | .error e => .error e
  | .ok block_hash =>
    match r.code_hash.into_scalar with
    | .error e => .error e
    | .ok code_hash => .ok ⟨block_hash, code_hash⟩

/-- `contract_code::Incomplete::adjust_refs`. -/
def adjust_refs (mapping : W64 → W64) (r : Incomplete) : Incomplete :=
  { r with block_hash := r.block_hash.adjust_req mapping,
           code_hash := r.code_hash.adjust_req mapping }

/-- `contract_code::Response::fill_outputs`: nothing. -/
def fill_outputs (_ : Response) : List (Nat × Output) := []

end contract_code

namespace execution

/-- `execution::Incomplete::note_outputs`: nothing. -/
def note_outputs (_ : Incomplete) : List (Nat × OutputKind) := []

/-- `execution::Incomplete::fill`: only `block_hash` is back-referenceable. -/
def fill (oracle : Oracle) (r : Incomplete) : Incomplete :=
  match r.block_hash with
  | .BackReference req idx =>
    { r with block_hash :=
        match oracle req idx with
        | .ok (.Hash h) => .Scalar h
        | _ => .BackReference req idx }
  | _ => r

/-- `execution::Incomplete::complete`. -/
def complete (r : Incomplete) : Except NoSuchOutput Complete :=
  match r.block_hash.into_scalar with
  | .error e => .error e
  | .ok block_hash =>
    .ok ⟨block_hash, r.from_addr, r.action, r.gas, r.gas_price, r.value, r.data⟩

/-- `execution::Incomplete::adjust_refs`. -/
def adjust_refs (mapping : W64 → W64) (r : Incomplete) : Incomplete :=
  { r with block_hash := r.block_hash.adjust_req mapping }

/-- `execution::Response::fill_outputs`: nothing. -/
def fill_outputs (_ : Response) : List (Nat × Output) := []

end execution

namespace epoch_signal

/-- `epoch_signal::Incomplete::note_outputs`: nothing. -/
def note_outputs (_ : Incomplete) : List (Nat × OutputKind) := []

/-- `epoch_signal::Incomplete::fill`. -/
def fill (oracle : Oracle) (r : Incomplete) : Incomplete :=
  match r.block_hash with
  | .BackReference req idx =>
    { r with block_hash :=
        match oracle req idx with
        | .ok (.Hash h) => .Scalar h
        | _ => .BackReference req idx }
  | _ => r

/-- `epoch_signal::Incomplete::complete`. -/
def complete (r : Incomplete) : Except NoSuchOutput Complete :=
  match r.block_hash.into_scalar with
  | .error e => .error e
  | .ok block_hash => .ok ⟨block_hash⟩

/-- `epoch_signal::Incomplete::adjust_refs`. -/
def adjust_refs (mapping : W64 → W64) (r : Incomplete) : Incomplete :=
  { r with block_hash := r.block_hash.adjust_req mapping }

/-- `epoch_signal::Response::fill_outputs`: nothing. -/
def fill_outputs (_ : Response) : List (Nat × Output) := []

end epoch_signal

/-- `Response::kind`. -/
def Response.kind : Response → Kind
  | .Headers _ => .Headers
  | .HeaderProof _ => .HeaderProof
  | .TransactionIndex _ => .TransactionIndex
  | .Receipts _ => .Receipts
  | .Body _ => .Body
  | .Account _ => .Account
  | .Storage _ => .Storage
  | .Code _ => .Code
  | .Execution _ => .Execution
  | .Signal _ => .Signal

/-- `impl IncompleteRequest for Request`: `note_outputs`, dispatching. -/
def Request.note_outputs : Request → List (Nat × OutputKind)
  | .Headers r => header.note_outputs r
  | .HeaderProof r => header_proof.note_outputs r
  | .TransactionIndex r => transaction_index.note_outputs r
  | .Receipts r => block_receipts.note_outputs r
  | .Body r => block_body.note_outputs r
  | .Account r => account.note_outputs r
  | .Storage r => storage.note_outputs r
  | .Code r => contract_code.note_outputs r
  | .Execution r => execution.note_outputs r
  | .Signal r => epoch_signal.note_outputs r

/-- `impl IncompleteRequest for Request`: `fill`, dispatching. -/
def Request.fill (oracle : Oracle) : Request → Request
  | .Headers r => .Headers (header.fill oracle r)
  | .HeaderProof r => .HeaderProof (header_proof.fill oracle r)
  | .TransactionIndex r => .TransactionIndex (transaction_index.fill oracle r)
  | .Receipts r => .Receipts (block_receipts.fill oracle r)
  | .Body r => .Body (block_body.fill oracle r)
  | .Account r => .Account (account.fill oracle r)
  | .Storage r => .Storage (storage.fill oracle r)
  | .Code r => .Code (contract_code.fill oracle r)
  | .Execution r => .Execution (execution.fill oracle r)
  | .Signal r => .Signal (epoch_signal.fill oracle r)

/-- `impl IncompleteRequest for Request`: `complete`, dispatching. -/
def Request.complete : Request → Except NoSuchOutput CompleteRequest
  | .Headers r => (header.complete r).map CompleteRequest.Headers
  | .HeaderProof r => (header_proof.complete r).map CompleteRequest.HeaderProof
  | .TransactionIndex r => (transaction_index.complete r).map CompleteRequest.TransactionIndex
  | .Receipts r => (block_receipts.complete r).map CompleteRequest.Receipts
  | .Body r => (block_body.complete r).map CompleteRequest.Body
  | .Account r => (account.complete r).map CompleteRequest.Account
  | .Storage r => (storage.complete r).map CompleteRequest.Storage
  | .Code r => (contract_code.complete r).map CompleteRequest.Code
  | .Execution r => (execution.complete r).map CompleteRequest.Execution
  | .Signal r => (epoch_signal.complete r).map CompleteRequest.Signal

/-- `impl IncompleteRequest for Request`: `adjust_refs`, dispatching. -/
def Request.adjust_refs (mapping : W64 → W64) : Request → Request
  | .Headers r => .Headers (header.adjust_refs mapping r)
  | .HeaderProof r => .HeaderProof (header_proof.adjust_refs mapping r)
  | .TransactionIndex r => .TransactionIndex (transaction_index.adjust_refs mapping r)
  | .Receipts r => .Receipts (block_receipts.adjust_refs mapping r)
  | .Body r => .Body (block_body.adjust_refs mapping r)
  | .Account r => .Account (account.adjust_refs mapping r)
  | .Storage r => .Storage (storage.adjust_refs mapping r)
  | .Code r => .Code (contract_code.adjust_refs mapping r)
  | .Execution r => .Execution (execution.adjust_refs mapping r)
  | .Signal r => .Signal (epoch_signal.adjust_refs mapping r)

/-- `impl ResponseLike for Response`: `fill_outputs`, dispatching. -/
def Response.fill_outputs : Response → List (Nat × Output)
  | .Headers r => header.fill_outputs r
  | .HeaderProof r => header_proof.fill_outputs r
  | .TransactionIndex r => transaction_index.fill_outputs r
  | .Receipts r => block_receipts.fill_outputs r
  | .Body r => block_body.fill_outputs r
  | .Account r => account.fill_outputs r
  | .Storage r => storage.fill_outputs r
  | .Code r => contract_code.fill_outputs r
  | .Execution r => execution.fill_outputs r
  | .Signal r => epoch_signal.fill_outputs r

/-- Whether a field is still an unresolved back-reference. -/
def Field.isBackRef : Field T → Bool
  | .Scalar _ => false
  | .BackReference _ _ => true

/-- Whether any `Field` of the request is still a back-reference. -/
def Request.hasBackRef : Request → Bool
  | .Headers r => r.start.isBackRef
  | .HeaderProof r => r.num.isBackRef
  | .TransactionIndex r => r.hash.isBackRef
  | .Receipts r => r.hash.isBackRef
  | .Body r => r.hash.isBackRef
  | .Account r => r.block_hash.isBackRef || r.address_hash.isBackRef
  | .Storage r => r.block_hash.isBackRef || r.address_hash.isBackRef || r.key_hash.isBackRef
  | .Code r => r.block_hash.isBackRef || r.code_hash.isBackRef
  | .Execution r => r.block_hash.isBackRef
  | .Signal r => r.block_hash.isBackRef

/-- Re-wrap every value of a complete request as a `Scalar` field.  A
complete request carries exactly the scalar values of the incomplete request
it came from iff this injection returns that incomplete request. -/
def CompleteRequest.toIncomplete : CompleteRequest → Request
  | .Headers r => .Headers ⟨.Scalar r.start, r.skip, r.max, r.reverse⟩
  | .HeaderProof r => .HeaderProof ⟨.Scalar r.num⟩
  | .TransactionIndex r => .TransactionIndex ⟨.Scalar r.hash⟩
  | .Receipts r => .Receipts ⟨.Scalar r.hash⟩
  | .Body r => .Body ⟨.Scalar r.hash⟩
  | .Account r => .Account ⟨.Scalar r.block_hash, .Scalar r.address_hash⟩
  | .Storage r => .Storage ⟨.Scalar r.block_hash, .Scalar r.address_hash, .Scalar r.key_hash⟩
  | .Code r => .Code ⟨.Scalar r.block_hash, .Scalar r.code_hash⟩
  | .Execution r =>
    .Execution ⟨.Scalar r.block_hash, r.from_addr, r.action, r.gas, r.gas_price, r.value, r.data⟩
  | .Signal r => .Signal ⟨.Scalar r.block_hash⟩

/-! ## `ethcore/light/src/net/error.rs`: error taxonomy and punishment -/

/-- Levels of punishment, declared in ascending order in the source. -/
inductive Punishment where
  | None
  | Disconnect
  | Disable
deriving DecidableEq

/-- The `#[repr]` discriminant of a `Punishment`, following the source's
declaration order (the comment there reads "In ascending order"). -/
def Punishment.rank : Punishment → Nat
  | .None => 0
  | .Disconnect => 1
  | .Disable => 2

/-- The ascending order of sanctions induced by declaration order. -/
def Punishment.lt (a b : Punishment) : Prop := a.rank < b.rank

instance (a b : Punishment) : Decidable (Punishment.lt a b) :=
  inferInstanceAs (Decidable (_ < _))

/-- Modelled from the spec: the `network` crate's `Error` type is not part of
the excerpt; the spec treats network I/O errors as opaque transient faults, so
the payload is modelled as a unit value. -/
inductive NetworkError where
  | mk
deriving DecidableEq

/-- Kinds of errors which can be encountered in the course of LES. -/
inductive Error where
  | Rlp (e : DecoderError)
  | Network (e : NetworkError)
  | NoCredits
  | UnrecognizedPacket (code : Nat)
  | UnexpectedHandshake
  | WrongNetwork
  | UnknownPeer
  | UnsolicitedResponse
  | BadBackReference
  | NotServer
  | UnsupportedProtocolVersion (pv : Nat)
  | BadProtocolVersion
  | Overburdened
  | RejectedByHandlers
deriving DecidableEq

/-- `Error::punishment`: what level of punishment an error warrants. -/
def Error.punishment : Error → Punishment
  | .Rlp _ => .Disable
  | .Network _ => .None
  | .NoCredits => .Disable
  | .UnrecognizedPacket _ => .Disconnect
  | .UnexpectedHandshake => .Disconnect
  | .WrongNetwork => .Disable
  | .UnknownPeer => .Disconnect
  | .UnsolicitedResponse => .Disable
  | .BadBackReference => .Disable
  | .NotServer => .Disable
  | .UnsupportedProtocolVersion _ => .Disable
  | .BadProtocolVersion => .Disable
  | .Overburdened => .None
  | .RejectedByHandlers => .Disconnect

/-! ## Wire codecs of the request types -/

/-- `impl Encodable for Field<T>`: a two-element list, `[0, value]` for a
scalar and `[1, [req_idx, out_idx]]` for a back-reference. -/
def encodeField (encT : T → RlpItem) : Field T → RlpItem
  | .Scalar data => .list [encodeNat 0, encT data]
  | .BackReference req idx =>
    .list [encodeNat 1, .list [encodeNat req.val, encodeNat idx.val]]

/-- `impl Decodable for Field<T>`: dispatch on the `u8` discriminant at
position 0. -/
def decodeField (decT : RlpItem → DecResult T) (it : RlpItem) : DecResult (Field T) :=
  match valAt (decodeUIntFin 1) it 0 with
  | .error e => .error e
  | .ok d =>
    match d.val with
    | 0 =>
      match valAt decT it 1 with
      | .error e => .error e
      | .ok v => .ok (.Scalar v)
    | 1 =>
      match it.getAt 1 with
      | .error e => .error e
      | .ok inner =>
        match valAt (decodeUIntFin 8) inner 0 with
        | .error e => .error e
        | .ok req =>
          match valAt (decodeUIntFin 8) inner 1 with
          | .error e => .error e
          | .ok idx => .ok (.BackReference req idx)
    | _ => .error (.Custom "Unknown discriminant for PIP field.")

/-- `impl Encodable for HashOrNumber`: the 32-byte string for a hash, the
integer encoding for a number. -/
def encodeHashOrNumber : HashOrNumber → RlpItem
  | .Hash h => encodeHashFin 32 h
  | .Number n => encodeNat n.val

/-- `impl Decodable for HashOrNumber`: attempt the 32-byte form first and
fall back to the integer form on failure (`as_val::<H256>().or_else(..)`). -/
def decodeHashOrNumber (it : RlpItem) : DecResult HashOrNumber :=
  match decodeHashFin 32 it with
  | .ok h => .ok (.Hash h)
  | .error _ => (decodeUIntFin 8 it).map HashOrNumber.Number

/-- `impl Encodable for Kind`: the `u8` tag. -/
def encodeKind (k : Kind) : RlpItem := encodeNat k.tag

/-- `impl Decodable for Kind`: a `u8` in 0..9. -/
def decodeKind (it : RlpItem) : DecResult Kind :=
  match decodeUIntFin 1 it with
  | .error e => .error e
  | .ok b =>
    match b.val with
    | 0 => .ok .Headers
    | 1 => .ok .HeaderProof
    | 2 => .ok .TransactionIndex
    | 3 => .ok .Receipts
    | 4 => .ok .Body
    | 5 => .ok .Account
    | 6 => .ok .Storage
    | 7 => .ok .Code
    | 8 => .ok .Execution
    | 9 => .ok .Signal
    | _ => .error (.Custom "Unknown PIP request ID.")

/-- Modelled from the spec: the RLP codec of `common_types::transaction::Action`
is not in the excerpt; `Create` is the empty byte string, `Call` the 20-byte
address, and decoding dispatches on emptiness. -/
def encodeAction : Action → RlpItem
  | .Create => .str []
  | .Call addr => encodeHashFin 20 addr

/-- Modelled from the spec: decoding of `Action` (see `encodeAction`). -/
def decodeAction : RlpItem → DecResult Action
  | .str [] => .ok .Create
  | .list [] => .error .RlpExpectedToBeData
  | it => (decodeHashFin 20 it).map Action.Call

/-- Modelled from the spec: `common_types::header::Header`'s RLP decoder is
not in the excerpt.  The source's headers-response decoder checks each raw
blob with `item.as_val::<FullHeader>()?`; a header is a struct encoded as an
RLP list, so the check is modelled by its structural necessary condition:
the blob must be a list node. -/
def validHeaderBlob (it : RlpItem) : Bool := it.isList

/-- Modelled from the spec: `common_types::transaction::UnverifiedTransaction`'s
RLP decoder is not in the excerpt; like headers, a transaction is a struct
encoded as an RLP list, modelled by that structural necessary condition. -/
def validTxBlob (it : RlpItem) : Bool := it.isList

/-- The validity check the source's body-response decoder performs on the raw
body blob: element 0 must be a list of decodable transactions and element 1 a
list of decodable headers (`rlp.list_at::<UnverifiedTransaction>(0)?` and
`rlp.list_at::<FullHeader>(1)?`). -/
def validBodyBlob : RlpItem → Bool
  | .list (txs :: uncles :: _) =>
    (match txs with
     | .list ts => ts.all validTxBlob
     | .str _ => false)
    && (match uncles with
        | .list us => us.all validHeaderBlob
        | .str _ => false)
  | _ => false

namespace header

/-- Derived `RlpEncodable` for `header::Incomplete`. -/
def encodeIncomplete (r : Incomplete) : RlpItem :=
  .list [encodeField encodeHashOrNumber r.start, encodeNat r.skip.val,
    encodeNat r.max.val, encodeBool r.reverse]

/-- Derived `RlpDecodable` for `header::Incomplete`. -/
def decodeIncomplete (it : RlpItem) : DecResult Incomplete :=
  match valAt (decodeField decodeHashOrNumber) it 0, valAt (decodeUIntFin 8) it 1,
      valAt (decodeUIntFin 8) it 2, valAt decodeBool it 3 with
  | .ok s, .ok sk, .ok mx, .ok rv => .ok ⟨s, sk, mx, rv⟩
  | .error e, _, _, _ => .error e
  | _, .error e, _, _ => .error e
  | _, _, .error e, _ => .error e
  | _, _, _, .error e => .error e

/-- `impl Encodable for header::Response`: the raw header blobs, spliced. -/
def encodeResponse (r : Response) : RlpItem := .list r.headers

/-- `impl Decodable for header::Response`: iterate, checking each blob is a
valid header encoding, and keep the raw blobs. -/
def decodeResponse (it : RlpItem) : DecResult Response :=
  match it with
  | .str _ => .ok ⟨[]⟩
  | .list items =>
    if items.all validHeaderBlob then .ok ⟨items⟩
    else .error (.Custom "invalid header blob")

end header

namespace header_proof

/-- Derived `RlpEncodable` for `header_proof::Incomplete`. -/
def encodeIncomplete (r : Incomplete) : RlpItem :=
  .list [encodeField (fun n => encodeNat n.val) r.num]

/-- Derived `RlpDecodable` for `header_proof::Incomplete`. -/
def decodeIncomplete (it : RlpItem) : DecResult Incomplete :=
  match valAt (decodeField (decodeUIntFin 8)) it 0 with
  | .ok n => .ok ⟨n⟩
  | .error e => .error e

/-- `impl Encodable for header_proof::Response`. -/
def encodeResponse (r : Response) : RlpItem :=
  .list [encodeBytesList r.proof, encodeHashFin 32 r.hash, encodeNat r.td.val]

/-- `impl Decodable for header_proof::Response`. -/
def decodeResponse (it : RlpItem) : DecResult Response :=
  match valAt decodeBytesList it 0, valAt (decodeHashFin 32) it 1,
      valAt (decodeUIntFin 32) it 2 with
  | .ok proof, .ok hash, .ok td => .ok ⟨proof, hash, td⟩
  | .error e, _, _ => .error e
  | _, .error e, _ => .error e
  | _, _, .error e => .error e

end header_proof

namespace transaction_index

/-- Derived `RlpEncodable` for `transaction_index::Incomplete`. -/
def encodeIncomplete (r : Incomplete) : RlpItem :=
  .list [encodeField (encodeHashFin 32) r.hash]

/-- Derived `RlpDecodable` for `transaction_index::Incomplete`. -/
def decodeIncomplete (it : RlpItem) : DecResult Incomplete :=
  match valAt (decodeField (decodeHashFin 32)) it 0 with
  | .ok h => .ok ⟨h⟩
  | .error e => .error e

/-- Derived `RlpEncodable` for `transaction_index::Response`. -/
def encodeResponse (r : Response) : RlpItem :=
  .list [encodeNat r.num.val, encodeHashFin 32 r.hash, encodeNat r.index.val]

/-- Derived `RlpDecodable` for `transaction_index::Response`. -/
def decodeResponse (it : RlpItem) : DecResult Response :=
  match valAt (decodeUIntFin 8) it 0, valAt (decodeHashFin 32) it 1,
      valAt (decodeUIntFin 8) it 2 with
  | .ok num, .ok hash, .ok index => .ok ⟨num, hash, index⟩
  | .error e, _, _ => .error e
  | _, .error e, _ => .error e
  | _, _, .error e => .error e

end transaction_index

namespace block_receipts

/-- Derived `RlpEncodable` for `block_receipts::Incomplete`. -/
def encodeIncomplete (r : Incomplete) : RlpItem :=
  .list [encodeField (encodeHashFin 32) r.hash]

/-- Derived `RlpDecodable` for `block_receipts::Incomplete`. -/
def decodeIncomplete (it : RlpItem) : DecResult Incomplete :=
  match valAt (decodeField (decodeHashFin 32)) it 0 with
  | .ok h => .ok ⟨h⟩
  | .error e => .error e

/-- Derived `RlpEncodableWrapper` for `block_receipts::Response`: the list of
receipts, each modelled as the item that encodes it. -/
def encodeResponse (r : Response) : RlpItem := .list r.receipts

/-- Derived `RlpDecodableWrapper` for `block_receipts::Response`. -/
def decodeResponse : RlpItem → DecResult Response
  | .list items => .ok ⟨items⟩
  | .str _ => .error .RlpExpectedToBeList

end block_receipts

namespace block_body

/-- Derived `RlpEncodable` for `block_body::Incomplete`. -/
def encodeIncomplete (r : Incomplete) : RlpItem :=
  .list [encodeField (encodeHashFin 32) r.hash]

/-- Derived `RlpDecodable` for `block_body::Incomplete`. -/
def decodeIncomplete (it : RlpItem) : DecResult Incomplete :=
  match valAt (decodeField (decodeHashFin 32)) it 0 with
  | .ok h => .ok ⟨h⟩
  | .error e => .error e

/-- `impl Encodable for block_body::Response`: the raw body blob, spliced. -/
def encodeResponse (r : Response) : RlpItem := r.body

/-- `impl Decodable for block_body::Response`: check body validity, then keep
the raw blob (`encoded::Body::new(rlp.as_raw().to_owned())`). -/
def decodeResponse (it : RlpItem) : DecResult Response :=
  if validBodyBlob it then .ok ⟨it⟩ else .error (.Custom "invalid body blob")

end block_body

namespace account

/-- Derived `RlpEncodable` for `account::Incomplete`. -/
def encodeIncomplete (r : Incomplete) : RlpItem :=
  .list [encodeField (encodeHashFin 32) r.block_hash,
    encodeField (encodeHashFin 32) r.address_hash]

/-- Derived `RlpDecodable` for `account::Incomplete`. -/
def decodeIncomplete (it : RlpItem) : DecResult Incomplete :=
  match valAt (decodeField (decodeHashFin 32)) it 0,
      valAt (decodeField (decodeHashFin 32)) it 1 with
  | .ok bh, .ok ah => .ok ⟨bh, ah⟩
  | .error e, _ => .error e
  | _, .error e => .error e

/-- Derived `RlpEncodable` for `account::Response`. -/
def encodeResponse (r : Response) : RlpItem :=
  .list [encodeBytesList r.proof, encodeNat r.nonce.val, encodeNat r.balance.val,
    encodeHashFin 32 r.code_hash, encodeHashFin 32 r.storage_root]

/-- Derived `RlpDecodable` for `account::Response`. -/
def decodeResponse (it : RlpItem) : DecResult Response :=
  match valAt decodeBytesList it 0, valAt (decodeUIntFin 32) it 1,
      valAt (decodeUIntFin 32) it 2, valAt (decodeHashFin 32) it 3,
      valAt (decodeHashFin 32) it 4 with
  | .ok proof, .ok nonce, .ok balance, .ok ch, .ok sr => .ok ⟨proof, nonce, balance, ch, sr⟩
  | .error e, _, _, _, _ => .error e
  | _, .error e, _, _, _ => .error e
  | _, _, .error e, _, _ => .error e
  | _, _, _, .error e, _ => .error e
  | _, _, _, _, .error e => .error e

end account

namespace storage

/-- Derived `RlpEncodable` for `storage::Incomplete`. -/
def encodeIncomplete (r : Incomplete) : RlpItem :=
  .list [encodeField (encodeHashFin 32) r.block_hash,
    encodeField (encodeHashFin 32) r.address_hash,
    encodeField (encodeHashFin 32) r.key_hash]

/-- Derived `RlpDecodable` for `storage::Incomplete`. -/
def decodeIncomplete (it : RlpItem) : DecResult Incomplete :=
  match valAt (decodeField (decodeHashFin 32)) it 0,
      valAt (decodeField (decodeHashFin 32)) it 1,
      valAt (decodeField (decodeHashFin 32)) it 2 with
  | .ok bh, .ok ah, .ok kh => .ok ⟨bh, ah, kh⟩
  | .error e, _, _ => .error e
  | _, .error e, _ => .error e
  | _, _, .error e => .error e

/-- Derived `RlpEncodable` for `storage::Response`. -/
def encodeResponse (r : Response) : RlpItem :=
  .list [encodeBytesList r.proof, encodeHashFin 32 r.value]

/-- Derived `RlpDecodable` for `storage::Response`. -/
def decodeResponse (it : RlpItem) : DecResult Response :=
  match valAt decodeBytesList it 0, valAt (decodeHashFin 32) it 1 with
  | .ok proof, .ok value => .ok ⟨proof, value⟩
  | .error e, _ => .error e
  | _, .error e => .error e

end storage

namespace contract_code

/-- Derived `RlpEncodable` for `contract_code::Incomplete`. -/
def encodeIncomplete (r : Incomplete) : RlpItem :=
  .list [encodeField (encodeHashFin 32) r.block_hash,
    encodeField (encodeHashFin 32) r.code_hash]

/-- Derived `RlpDecodable` for `contract_code::Incomplete`. -/
def decodeIncomplete (it : RlpItem) : DecResult Incomplete :=
  match valAt (decodeField (decodeHashFin 32)) it 0,
      valAt (decodeField (decodeHashFin 32)) it 1 with
  | .ok bh, .ok ch => .ok ⟨bh, ch⟩
  | .error e, _ => .error e
  | _, .error e => .error e

/-- Derived `RlpEncodableWrapper` for `contract_code::Response`. -/
def encodeResponse (r : Response) : RlpItem := encodeBytes r.code

/-- Derived `RlpDecodableWrapper` for `contract_code::Response`. -/
def decodeResponse (it : RlpItem) : DecResult Response :=
  match decodeBytes it with
  | .ok code => .ok ⟨code⟩
  | .error e => .error e

end contract_code

namespace execution

/-- Derived `RlpEncodable` for `execution::Incomplete`. -/
def encodeIncomplete (r : Incomplete) : RlpItem :=
  .list [encodeField (encodeHashFin 32) r.block_hash, encodeHashFin 20 r.from_addr,
    encodeAction r.action, encodeNat r.gas.val, encodeNat r.gas_price.val,
    encodeNat r.value.val, encodeBytes r.data]

/-- Derived `RlpDecodable` for `execution::Incomplete`. -/
def decodeIncomplete (it : RlpItem) : DecResult Incomplete :=
  match valAt (decodeField (decodeHashFin 32)) it 0, valAt (decodeHashFin 20) it 1,
      valAt decodeAction it 2, valAt (decodeUIntFin 32) it 3,
      valAt (decodeUIntFin 32) it 4, valAt (decodeUIntFin 32) it 5,
      valAt decodeBytes it 6 with
  | .ok bh, .ok fr, .ok ac, .ok g, .ok gp, .ok v, .ok d => .ok ⟨bh, fr, ac, g, gp, v, d⟩
  | .error e, _, _, _, _, _, _ => .error e
  | _, .error e, _, _, _, _, _ => .error e
  | _, _, .error e, _, _, _, _ => .error e
  | _, _, _, .error e, _, _, _ => .error e
  | _, _, _, _, .error e, _, _ => .error e
  | _, _, _, _, _, .error e, _ => .error e
  | _, _, _, _, _, _, .error e => .error e

/-- `impl Encodable for execution::Response`: a list of byte-string items. -/
def encodeResponse (r : Response) : RlpItem := .list (r.items.map RlpItem.str)

/-- `impl Decodable for execution::Response`: iterate and take each item's
data (`raw_item.data()?`). -/
def decodeResponse : RlpItem → DecResult Response
  | .str _ => .ok ⟨[]⟩
  | .list items =>
    match decodeBytesEach items with
    | .ok bs => .ok ⟨bs⟩
    | .error e => .error e

end execution

namespace epoch_signal

/-- Hand-written `Encodable` for `epoch_signal::Incomplete`: a one-element
list. -/
def encodeIncomplete (r : Incomplete) : RlpItem :=
  .list [encodeField (encodeHashFin 32) r.block_hash]

/-- Hand-written `Decodable` for `epoch_signal::Incomplete`. -/
def decodeIncomplete (it : RlpItem) : DecResult Incomplete :=
  match valAt (decodeField (decodeHashFin 32)) it 0 with
  | .ok h => .ok ⟨h⟩
  | .error e => .error e

/-- `impl Encodable for epoch_signal::Response`: the signal bytes. -/
def encodeResponse (r : Response) : RlpItem := encodeBytes r.signal

/-- `impl Decodable for epoch_signal::Response`. -/
def decodeResponse (it : RlpItem) : DecResult Response :=
  match decodeBytes it with
  | .ok signal => .ok ⟨signal⟩
  | .error e => .error e

end epoch_signal

/-- The per-kind request body encoder the envelope appends at position 1. -/
def Request.encodeBody : Request → RlpItem
  | .Headers r => header.encodeIncomplete r
  | .HeaderProof r => header_proof.encodeIncomplete r
  | .TransactionIndex r => transaction_index.encodeIncomplete r
  | .Receipts r => block_receipts.encodeIncomplete r
  | .Body r => block_body.encodeIncomplete r
  | .Account r => account.encodeIncomplete r
  | .Storage r => storage.encodeIncomplete r
  | .Code r => contract_code.encodeIncomplete r
  | .Execution r => execution.encodeIncomplete r
  | .Signal r => epoch_signal.encodeIncomplete r

/-- `impl Encodable for Request`: a two-element list `[kind_tag, body]`. -/
def encodeRequest (r : Request) : RlpItem :=
  .list [encodeKind r.kind, r.encodeBody]

/-- `impl Decodable for Request`: read the `Kind` at position 0 and dispatch
the body decoder on it at position 1. -/
def decodeRequest (it : RlpItem) : DecResult Request :=
  match valAt decodeKind it 0 with
  | .error e => .error e
  | .ok k =>
    match it.getAt 1 with
    | .error e => .error e
    | .ok body =>
      match k with
      | .Headers => (header.decodeIncomplete body).map Request.Headers
      | .HeaderProof => (header_proof.decodeIncomplete body).map Request.HeaderProof
      | .TransactionIndex =>
        (transaction_index.decodeIncomplete body).map Request.TransactionIndex
      | .Receipts => (block_receipts.decodeIncomplete body).map Request.Receipts
      | .Body => (block_body.decodeIncomplete body).map Request.Body
      | .Account => (account.decodeIncomplete body).map Request.Account
      | .Storage => (storage.decodeIncomplete body).map Request.Storage
      | .Code => (contract_code.decodeIncomplete body).map Request.Code
      | .Execution => (execution.decodeIncomplete body).map Request.Execution
      | .Signal => (epoch_signal.decodeIncomplete body).map Request.Signal

/-- The per-kind response body encoder the envelope appends at position 1. -/
def Response.encodeBody : Response → RlpItem
  | .Headers r => header.encodeResponse r
  | .HeaderProof r => header_proof.encodeResponse r
  | .TransactionIndex r => transaction_index.encodeResponse r
  | .Receipts r => block_receipts.encodeResponse r
  | .Body r => block_body.encodeResponse r
  | .Account r => account.encodeResponse r
  | .Storage r => storage.encodeResponse r
  | .Code r => contract_code.encodeResponse r
  | .Execution r => execution.encodeResponse r
  | .Signal r => epoch_signal.encodeResponse r

/-- `impl Encodable for Response`: a two-element list `[kind_tag, body]`. -/
def encodeResponseEnvelope (r : Response) : RlpItem :=
  .list [encodeKind r.kind, r.encodeBody]

/-- `impl Decodable for Response`: read the `Kind` at position 0 and dispatch
the body decoder on it at position 1. -/
def decodeResponseEnvelope (it : RlpItem) : DecResult Response :=
  match valAt decodeKind it 0 with
  | .error e => .error e
  | .ok k =>
    match it.getAt 1 with
    | .error e => .error e
    | .ok body =>
      match k with
      | .Headers => (header.decodeResponse body).map Response.Headers
      | .HeaderProof => (header_proof.decodeResponse body).map Response.HeaderProof
      | .TransactionIndex =>
        (transaction_index.decodeResponse body).map Response.TransactionIndex
      | .Receipts => (block_receipts.decodeResponse body).map Response.Receipts
      | .Body => (block_body.decodeResponse body).map Response.Body
      | .Account => (account.decodeResponse body).map Response.Account
      | .Storage => (storage.decodeResponse body).map Response.Storage
      | .Code => (contract_code.decodeResponse body).map Response.Code
      | .Execution => (execution.decodeResponse body).map Response.Execution
      | .Signal => (epoch_signal.decodeResponse body).map Response.Signal

/-! ## Round-trip lemmas, leaves upward -/

theorem decodeKind_encodeKind (k : Kind) : decodeKind (encodeKind k) = .ok k := by
  cases k <;> rfl

theorem decodeAction_encodeAction (a : Action) :
    decodeAction (encodeAction a) = .ok a := by
  cases a with
  | Create => rfl
  | Call addr =>
    have hlen := encodeHashFin_length 20 addr
    show decodeAction (encodeHashFin 20 addr) = .ok (.Call addr)
    rcases hs : List.replicate (20 - (natToBytesBE addr.val).length) 0 ++ natToBytesBE addr.val
      with _ | ⟨b, bs⟩
    · rw [hs] at hlen; simp at hlen
    · have hform : encodeHashFin 20 addr = .str (b :: bs) := by
        rw [encodeHashFin, hs]
      rw [hform]
      show (decodeHashFin 20 (.str (b :: bs))).map Action.Call = .ok (.Call addr)
      rw [← hform, decodeHashFin_encode]
      rfl

theorem decodeHashOrNumber_encode (x : HashOrNumber) :
    decodeHashOrNumber (encodeHashOrNumber x) = .ok x := by
  cases x with
  | Hash h =>
    simp [decodeHashOrNumber, encodeHashOrNumber, decodeHashFin_encode]
  | Number n =>
    simp [decodeHashOrNumber, encodeHashOrNumber, Except.map,
      decodeHashFin_encodeNat_short n.isLt, decodeUIntFin_encode 8 n]

theorem valAt_list (dec : RlpItem → DecResult α) (l : List RlpItem) (i : Nat) :
    valAt dec (.list l) i =
      match l.get? i with
      | some x => dec x
      | none => .error .RlpIsTooShort := by
  simp only [valAt, RlpItem.getAt]
  rcases l.get? i with _ | x <;> rfl

theorem decodeField_encodeField (decT : RlpItem → DecResult T) (encT : T → RlpItem)
    (hT : ∀ t, decT (encT t) = .ok t) (f : Field T) :
    decodeField decT (encodeField encT f) = .ok f := by
  cases f with
  | Scalar v =>
    simp [decodeField, encodeField, valAt_list, decodeUIntFin_encodeNat (show 0 < 256 ^ 1 by norm_num), hT]
  | BackReference req idx =>
    simp [decodeField, encodeField, valAt_list, RlpItem.getAt,
      decodeUIntFin_encodeNat (show 1 < 256 ^ 1 by norm_num),
      decodeUIntFin_encode 8 req, decodeUIntFin_encode 8 idx]

/-- `Field<H256>` instance of the field round trip. -/
theorem decodeField_hash (f : Field H256) :
    decodeField (decodeHashFin 32) (encodeField (encodeHashFin 32) f) = .ok f :=
  decodeField_encodeField _ _ (decodeHashFin_encode 32) f

/-- `Field<u64>` instance of the field round trip. -/
theorem decodeField_num (f : Field W64) :
    decodeField (decodeUIntFin 8) (encodeField (fun n => encodeNat n.val) f) = .ok f :=
  decodeField_encodeField _ _ (decodeUIntFin_encode 8) f

/-- `Field<HashOrNumber>` instance of the field round trip. -/
theorem decodeField_hon (f : Field HashOrNumber) :
    decodeField decodeHashOrNumber (encodeField encodeHashOrNumber f) = .ok f :=
  decodeField_encodeField _ _ decodeHashOrNumber_encode f

/-! ### Per-kind body round trips -/

theorem decodeBytes_str (s : List Nat) : decodeBytes (.str s) = .ok s := rfl

theorem header_decodeIncomplete_encode (r : header.Incomplete) :
    header.decodeIncomplete (header.encodeIncomplete r) = .ok r := by
  obtain ⟨s, sk, mx, rv⟩ := r
  simp only [header.decodeIncomplete, header.encodeIncomplete, valAt_list, List.get?]
  simp only [decodeField_hon, decodeUIntFin_encode 8, decodeBool_encode]

theorem header_proof_decodeIncomplete_encode (r : header_proof.Incomplete) :
    header_proof.decodeIncomplete (header_proof.encodeIncomplete r) = .ok r := by
  obtain ⟨n⟩ := r
  simp only [header_proof.decodeIncomplete, header_proof.encodeIncomplete, valAt_list,
    List.get?]
  simp only [decodeField_num]

theorem transaction_index_decodeIncomplete_encode (r : transaction_index.Incomplete) :
    transaction_index.decodeIncomplete (transaction_index.encodeIncomplete r) = .ok r := by
  obtain ⟨h⟩ := r
  simp only [transaction_index.decodeIncomplete, transaction_index.encodeIncomplete,
    valAt_list, List.get?]
  simp only [decodeField_hash]

theorem block_receipts_decodeIncomplete_encode (r : block_receipts.Incomplete) :
    block_receipts.decodeIncomplete (block_receipts.encodeIncomplete r) = .ok r := by
  obtain ⟨h⟩ := r
  simp only [block_receipts.decodeIncomplete, block_receipts.encodeIncomplete,
    valAt_list, List.get?]
  simp only [decodeField_hash]

theorem block_body_decodeIncomplete_encode (r : block_body.Incomplete) :
    block_body.decodeIncomplete (block_body.encodeIncomplete r) = .ok r := by
  obtain ⟨h⟩ := r
  simp only [block_body.decodeIncomplete, block_body.encodeIncomplete,
    valAt_list, List.get?]
  simp only [decodeField_hash]

theorem account_decodeIncomplete_encode (r : account.Incomplete) :
    account.decodeIncomplete (account.encodeIncomplete r) = .ok r := by
  obtain ⟨bh, ah⟩ := r
  simp only [account.decodeIncomplete, account.encodeIncomplete, valAt_list, List.get?]
  simp only [decodeField_hash]

theorem storage_decodeIncomplete_encode (r : storage.Incomplete) :
    storage.decodeIncomplete (storage.encodeIncomplete r) = .ok r := by
  obtain ⟨bh, ah, kh⟩ := r
  simp only [storage.decodeIncomplete, storage.encodeIncomplete, valAt_list, List.get?]
  simp only [decodeField_hash]

theorem contract_code_decodeIncomplete_encode (r : contract_code.Incomplete) :
    contract_code.decodeIncomplete (contract_code.encodeIncomplete r) = .ok r := by
  obtain ⟨bh, ch⟩ := r
  simp only [contract_code.decodeIncomplete, contract_code.encodeIncomplete,
    valAt_list, List.get?]
  simp only [decodeField_hash]

theorem execution_decodeIncomplete_encode (r : execution.Incomplete) :
    execution.decodeIncomplete (execution.encodeIncomplete r) = .ok r := by
  obtain ⟨bh, fr, ac, g, gp, v, d⟩ := r
  simp only [execution.decodeIncomplete, execution.encodeIncomplete, valAt_list,
    List.get?, encodeBytes]
  simp only [decodeField_hash, decodeHashFin_encode 20, decodeAction_encodeAction,
    decodeUIntFin_encode 32, decodeBytes_str]

theorem epoch_signal_decodeIncomplete_encode (r : epoch_signal.Incomplete) :
    epoch_signal.decodeIncomplete (epoch_signal.encodeIncomplete r) = .ok r := by
  obtain ⟨h⟩ := r
  simp only [epoch_signal.decodeIncomplete, epoch_signal.encodeIncomplete,
    valAt_list, List.get?]
  simp only [decodeField_hash]

theorem header_decodeResponse_encode (r : header.Response)
    (hv : r.headers.all validHeaderBlob = true) :
    header.decodeResponse (header.encodeResponse r) = .ok r := by
  obtain ⟨hs⟩ := r
  simp only [header.decodeResponse, header.encodeResponse] at *
  rw [if_pos hv]

theorem header_proof_decodeResponse_encode (r : header_proof.Response) :
    header_proof.decodeResponse (header_proof.encodeResponse r) = .ok r := by
  obtain ⟨p, h, td⟩ := r
  simp only [header_proof.decodeResponse, header_proof.encodeResponse, valAt_list,
    List.get?]
  simp only [decodeBytesList_encode, decodeHashFin_encode 32, decodeUIntFin_encode 32]

theorem transaction_index_decodeResponse_encode (r : transaction_index.Response) :
    transaction_index.decodeResponse (transaction_index.encodeResponse r) = .ok r := by
  obtain ⟨n, h, i⟩ := r
  simp only [transaction_index.decodeResponse, transaction_index.encodeResponse,
    valAt_list, List.get?]
  simp only [decodeUIntFin_encode 8, decodeHashFin_encode 32]

theorem block_receipts_decodeResponse_encode (r : block_receipts.Response) :
    block_receipts.decodeResponse (block_receipts.encodeResponse r) = .ok r := by
  obtain ⟨rs⟩ := r
  rfl

theorem block_body_decodeResponse_encode (r : block_body.Response)
    (hv : validBodyBlob r.body = true) :
    block_body.decodeResponse (block_body.encodeResponse r) = .ok r := by
  obtain ⟨b⟩ := r
  simp only [block_body.decodeResponse, block_body.encodeResponse] at *
  rw [if_pos hv]

theorem account_decodeResponse_encode (r : account.Response) :
    account.decodeResponse (account.encodeResponse r) = .ok r := by
  obtain ⟨p, n, b, ch, sr⟩ := r
  simp only [account.decodeResponse, account.encodeResponse, valAt_list, List.get?]
  simp only [decodeBytesList_encode, decodeUIntFin_encode 32, decodeHashFin_encode 32]

theorem storage_decodeResponse_encode (r : storage.Response) :
    storage.decodeResponse (storage.encodeResponse r) = .ok r := by
  obtain ⟨p, v⟩ := r
  simp only [storage.decodeResponse, storage.encodeResponse, valAt_list, List.get?]
  simp only [decodeBytesList_encode, decodeHashFin_encode 32]

theorem contract_code_decodeResponse_encode (r : contract_code.Response) :
    contract_code.decodeResponse (contract_code.encodeResponse r) = .ok r := by
  obtain ⟨c⟩ := r
  rfl

theorem execution_decodeResponse_encode (r : execution.Response) :
    execution.decodeResponse (execution.encodeResponse r) = .ok r := by
  obtain ⟨items⟩ := r
  simp only [execution.decodeResponse, execution.encodeResponse]
  simp only [decodeBytesEach_map]

theorem epoch_signal_decodeResponse_encode (r : epoch_signal.Response) :
    epoch_signal.decodeResponse (epoch_signal.encodeResponse r) = .ok r := by
  obtain ⟨s⟩ := r
  rfl

/-! ### Envelope round trips -/

/-- The raw-blob validity conditions the response decoders re-check: all
header blobs of a `Headers` response and the body blob of a `Body` response
must be valid encodings; the other eight kinds carry no raw blobs. -/
def Response.blobsValid : Response → Bool
  | .Headers r => r.headers.all validHeaderBlob
  | .Body r => validBodyBlob r.body
  | _ => true

theorem decodeRequest_encodeRequest (r : Request) :
    decodeRequest (encodeRequest r) = .ok r := by
  cases r <;>
    (simp only [decodeRequest, encodeRequest, Request.kind, Request.encodeBody,
      valAt_list, RlpItem.getAt, List.get?]
     simp only [decodeKind_encodeKind,
      header_decodeIncomplete_encode, header_proof_decodeIncomplete_encode,
      transaction_index_decodeIncomplete_encode, block_receipts_decodeIncomplete_encode,
      block_body_decodeIncomplete_encode, account_decodeIncomplete_encode,
      storage_decodeIncomplete_encode, contract_code_decodeIncomplete_encode,
      execution_decodeIncomplete_encode, epoch_signal_decodeIncomplete_encode,
      Except.map])

theorem decodeResponseEnvelope_encode (r : Response) (hv : r.blobsValid = true) :
    decodeResponseEnvelope (encodeResponseEnvelope r) = .ok r := by
  cases r with
  | Headers x =>
    simp only [Response.blobsValid] at hv
    simp only [decodeResponseEnvelope, encodeResponseEnvelope, Response.kind,
      Response.encodeBody, valAt_list, RlpItem.getAt, List.get?]
    simp only [decodeKind_encodeKind, Except.map, header_decodeResponse_encode _ hv]
  | Body x =>
    simp only [Response.blobsValid] at hv
    simp only [decodeResponseEnvelope, encodeResponseEnvelope, Response.kind,
      Response.encodeBody, valAt_list, RlpItem.getAt, List.get?]
    simp only [decodeKind_encodeKind, Except.map, block_body_decodeResponse_encode _ hv]
  | _ =>
    simp only [decodeResponseEnvelope, encodeResponseEnvelope, Response.kind,
      Response.encodeBody, valAt_list, RlpItem.getAt, List.get?]
    simp only [decodeKind_encodeKind, Except.map,
      header_proof_decodeResponse_encode, transaction_index_decodeResponse_encode,
      block_receipts_decodeResponse_encode, account_decodeResponse_encode,
      storage_decodeResponse_encode, contract_code_decodeResponse_encode,
      execution_decodeResponse_encode, epoch_signal_decodeResponse_encode]

/-! ## Spec-side mirrors of `fill` and `adjust_refs`

These definitions follow the specification's words, to be compared with the
source-translated operations above. -/

/-- Follows the spec's words for `fill` on a hash-expecting field: the
back-reference is replaced by a scalar iff the oracle returns an output of
the expected kind (here `Hash`); otherwise it is left in place, and scalar
fields are never modified. -/
def specResolveHash (oracle : Oracle) : Field H256 → Field H256
  | .Scalar v => .Scalar v
  | .BackReference i j =>
    match oracle i j with
    | .ok (.Hash h) => .Scalar h
    | _ => .BackReference i j

/-- Follows the spec's words for `fill` on a number-expecting field. -/
def specResolveNumber (oracle : Oracle) : Field W64 → Field W64
  | .Scalar v => .Scalar v
  | .BackReference i j =>
    match oracle i j with
    | .ok (.Number n) => .Scalar n
    | _ => .BackReference i j

/-- Follows the spec's words for `fill` on `Headers.start`: either a hash or
a number back-reference is accepted, converted via `HashOrNumber`. -/
def specResolveStart (oracle : Oracle) : Field HashOrNumber → Field HashOrNumber
  | .Scalar v => .Scalar v
  | .BackReference i j =>
    match oracle i j with
    | .ok (.Hash h) => .Scalar (HashOrNumber.ofHash h)
    | .ok (.Number n) => .Scalar (HashOrNumber.ofNumber n)
    | .error _ => .BackReference i j

/-- Follows the spec's words for `fill` at the request level: each field of
the request is resolved independently according to its expected kind (the
spec's §3 table lists the fields of each kind). -/
def specFill (oracle : Oracle) : Request → Request
  | .Headers r => .Headers { r with start := specResolveStart oracle r.start }
  | .HeaderProof r => .HeaderProof { r with num := specResolveNumber oracle r.num }
  | .TransactionIndex r => .TransactionIndex { r with hash := specResolveHash oracle r.hash }
  | .Receipts r => .Receipts { r with hash := specResolveHash oracle r.hash }
  | .Body r => .Body { r with hash := specResolveHash oracle r.hash }
  | .Account r =>
    .Account ⟨specResolveHash oracle r.block_hash, specResolveHash oracle r.address_hash⟩
  | .Storage r =>
    .Storage ⟨specResolveHash oracle r.block_hash, specResolveHash oracle r.address_hash,
      specResolveHash oracle r.key_hash⟩
  | .Code r =>
    .Code ⟨specResolveHash oracle r.block_hash, specResolveHash oracle r.code_hash⟩
  | .Execution r => .Execution { r with block_hash := specResolveHash oracle r.block_hash }
  | .Signal r => .Signal { r with block_hash := specResolveHash oracle r.block_hash }

/-- Follows the spec's words for `adjust_refs`: a scalar is left unchanged,
and the request-index component of a back-reference is rewritten by the
mapping exactly once, the output-index component untouched. -/
def specRewriteRef (m : W64 → W64) : Field T → Field T
  | .Scalar v => .Scalar v
  | .BackReference i j => .BackReference (m i) j

/-- Follows the spec's words for `adjust_refs` at the request level: every
field of the request is rewritten by `specRewriteRef`, once each. -/
def specAdjustRefs (m : W64 → W64) : Request → Request
  | .Headers r => .Headers { r with start := specRewriteRef m r.start }
  | .HeaderProof r => .HeaderProof { r with num := specRewriteRef m r.num }
  | .TransactionIndex r => .TransactionIndex { r with hash := specRewriteRef m r.hash }
  | .Receipts r => .Receipts { r with hash := specRewriteRef m r.hash }
  | .Body r => .Body { r with hash := specRewriteRef m r.hash }
  | .Account r =>
    .Account ⟨specRewriteRef m r.block_hash, specRewriteRef m r.address_hash⟩
  | .Storage r =>
    .Storage ⟨specRewriteRef m r.block_hash, specRewriteRef m r.address_hash,
      specRewriteRef m r.key_hash⟩
  | .Code r => .Code ⟨specRewriteRef m r.block_hash, specRewriteRef m r.code_hash⟩
  | .Execution r => .Execution { r with block_hash := specRewriteRef m r.block_hash }
  | .Signal r => .Signal { r with block_hash := specRewriteRef m r.block_hash }

/-- Follows the spec's words for `note_outputs`: the outputs a request kind
declares, in slot order — a pure function of the kind alone (the spec's
output table and invariant I4). -/
def specDeclaredOutputs : Kind → List (Nat × OutputKind)
  | .HeaderProof => [(0, .Hash)]
  | .TransactionIndex => [(0, .Number), (1, .Hash)]
  | .Account => [(0, .Hash), (1, .Hash)]
  | .Storage => [(0, .Hash)]
  | _ => []

instance : NeZero (256 ^ 8 : Nat) := ⟨by norm_num⟩

instance : NeZero (256 ^ 20 : Nat) := ⟨by norm_num⟩

instance : NeZero (256 ^ 32 : Nat) := ⟨by norm_num⟩

end Pip

namespace Pip

/-! ## The claims -/

/-- C2.  `Error::punishment` is a pure total function mapping every `Error`
variant to exactly one `Punishment`, as fixed by the table: `Rlp → Disable`,
`NoCredits → Disable`, `UnrecognizedPacket → Disconnect`,
`UnexpectedHandshake → Disconnect`, `WrongNetwork → Disable`,
`UnknownPeer → Disconnect`, `UnsolicitedResponse → Disable`,
`BadBackReference → Disable`, `NotServer → Disable`,
`UnsupportedProtocolVersion → Disable`, `BadProtocolVersion → Disable`,
`Network → None`, `Overburdened → None`, `RejectedByHandlers → Disconnect`. -/
theorem pip_c2_punishment_table :
    (∀ d : DecoderError, (Error.Rlp d).punishment = .Disable) ∧
    (Error.NoCredits.punishment = .Disable) ∧
    (∀ c : Nat, (Error.UnrecognizedPacket c).punishment = .Disconnect) ∧
    (Error.UnexpectedHandshake.punishment = .Disconnect) ∧
    (Error.WrongNetwork.punishment = .Disable) ∧
    (Error.UnknownPeer.punishment = .Disconnect) ∧
    (Error.UnsolicitedResponse.punishment = .Disable) ∧
    (Error.BadBackReference.punishment = .Disable) ∧
    (Error.NotServer.punishment = .Disable) ∧
    (∀ v : Nat, (Error.UnsupportedProtocolVersion v).punishment = .Disable) ∧
    (Error.BadProtocolVersion.punishment = .Disable) ∧
    (∀ ne : NetworkError, (Error.Network ne).punishment = .None) ∧
    (Error.Overburdened.punishment = .None) ∧
    (Error.RejectedByHandlers.punishment = .Disconnect) :=
  ⟨fun _ => rfl, rfl, fun _ => rfl, rfl, rfl, rfl, rfl, rfl, rfl,
    fun _ => rfl, rfl, fun _ => rfl, rfl, rfl⟩

/-- C9.  The `Punishment` type is totally ordered by its (ascending)
declaration order, with `None < Disconnect < Disable`: the order is total,
asymmetric (hence antisymmetric) and transitive. -/
theorem pip_c9_punishment_order :
    (∀ a b : Punishment, a = b ∨ a.lt b ∨ b.lt a) ∧
    (∀ a b : Punishment, a.lt b → ¬ b.lt a) ∧
    (∀ a b c : Punishment, a.lt b → b.lt c → a.lt c) ∧
    Punishment.lt .None .Disconnect ∧ Punishment.lt .Disconnect .Disable := by
  refine ⟨?_, ?_, ?_, by decide, by decide⟩
  · intro a b; cases a <;> cases b <;> decide
  · intro a b; cases a <;> cases b <;> decide
  · intro a b c; cases a <;> cases b <;> cases c <;> decide

/-- Witness for C9: transitivity applied at `None < Disconnect < Disable`
yields `None < Disable`. -/
theorem pip_c9_witness : Punishment.lt .None .Disable :=
  pip_c9_punishment_order.2.2.1 .None .Disconnect .Disable (by decide) (by decide)

/-- C5.  For every incomplete request and every oracle, `fill(oracle)`
replaces a `BackReference(i,j)` field with a `Scalar` iff the oracle returns
`Ok` with an `Output` of the kind that field expects (`Headers.start`
accepting both shapes via `HashOrNumber`); otherwise the back-reference is
left in place, and scalar fields are never modified — i.e. `Request::fill`
agrees with the spec-side resolver on every request. -/
theorem pip_c5_fill_spec (oracle : Oracle) (r : Request) :
    Request.fill oracle r = specFill oracle r := by
  cases r with
  | Headers x =>
    obtain ⟨s, sk, mx, rv⟩ := x
    cases s <;> simp only [Request.fill, specFill, header.fill, specResolveStart]
  | HeaderProof x =>
    obtain ⟨n⟩ := x
    cases n <;> simp only [Request.fill, specFill, header_proof.fill, specResolveNumber]
  | TransactionIndex x =>
    obtain ⟨h⟩ := x
    cases h <;> simp only [Request.fill, specFill, transaction_index.fill, specResolveHash]
  | Receipts x =>
    obtain ⟨h⟩ := x
    cases h <;> simp only [Request.fill, specFill, block_receipts.fill, specResolveHash]
  | Body x =>
    obtain ⟨h⟩ := x
    cases h <;> simp only [Request.fill, specFill, block_body.fill, specResolveHash]
  | Account x =>
    obtain ⟨bh, ah⟩ := x
    cases bh <;> cases ah <;>
      simp only [Request.fill, specFill, account.fill, specResolveHash]
  | Storage x =>
    obtain ⟨bh, ah, kh⟩ := x
    cases bh <;> cases ah <;> cases kh <;>
      simp only [Request.fill, specFill, storage.fill, specResolveHash]
  | Code x =>
    obtain ⟨bh, ch⟩ := x
    cases bh <;> cases ch <;>
      simp only [Request.fill, specFill, contract_code.fill, specResolveHash]
  | Execution x =>
    obtain ⟨bh, fr, ac, g, gp, v, d⟩ := x
    cases bh <;> simp only [Request.fill, specFill, execution.fill, specResolveHash]
  | Signal x =>
    obtain ⟨h⟩ := x
    cases h <;> simp only [Request.fill, specFill, epoch_signal.fill, specResolveHash]

/-- C6.  For every request and every index mapping `m`, `adjust_refs(m)`
leaves every scalar field unchanged, rewrites the request-index component of
every back-reference to `m(req_idx)` exactly once, and leaves the
output-index component unchanged — at the field level and lifted to
`Request::adjust_refs`. -/
theorem pip_c6_adjust_spec (m : W64 → W64) :
    (∀ (T : Type) (v : T), Field.adjust_req m (.Scalar v) = .Scalar v) ∧
    (∀ (T : Type) (i j : W64),
      (Field.adjust_req m (.BackReference i j) : Field T) = .BackReference (m i) j) ∧
    (∀ r : Request, Request.adjust_refs m r = specAdjustRefs m r) := by
  refine ⟨fun _ _ => rfl, fun _ _ _ => rfl, ?_⟩
  intro r
  cases r with
  | Headers x =>
    obtain ⟨s, sk, mx, rv⟩ := x
    cases s <;> rfl
  | HeaderProof x => obtain ⟨n⟩ := x; cases n <;> rfl
  | TransactionIndex x => obtain ⟨h⟩ := x; cases h <;> rfl
  | Receipts x => obtain ⟨h⟩ := x; cases h <;> rfl
  | Body x => obtain ⟨h⟩ := x; cases h <;> rfl
  | Account x => obtain ⟨bh, ah⟩ := x; cases bh <;> cases ah <;> rfl
  | Storage x => obtain ⟨bh, ah, kh⟩ := x; cases bh <;> cases ah <;> cases kh <;> rfl
  | Code x => obtain ⟨bh, ch⟩ := x; cases bh <;> cases ch <;> rfl
  | Execution x => obtain ⟨bh, fr, ac, g, gp, v, d⟩ := x; cases bh <;> rfl
  | Signal x => obtain ⟨h⟩ := x; cases h <;> rfl

/-- C7.  For every type `T` whose codec round-trips, `Field<T>` encodes as a
two-element list — `[0, value]` for `Scalar` and `[1, [req_idx, out_idx]]`
for `BackReference` — and decoding the encoding returns the original field
for both variants. -/
theorem pip_c7_field_codec (T : Type) (encT : T → RlpItem) (decT : RlpItem → DecResult T)
    (hT : ∀ t, decT (encT t) = .ok t) :
    (∀ v : T, encodeField encT (.Scalar v) = .list [encodeNat 0, encT v]) ∧
    (∀ i j : W64, encodeField encT (.BackReference i j) =
      .list [encodeNat 1, .list [encodeNat i.val, encodeNat j.val]]) ∧
    (∀ f : Field T, decodeField decT (encodeField encT f) = .ok f) :=
  ⟨fun _ => rfl, fun _ _ => rfl, decodeField_encodeField decT encT hT⟩

/-- Witness for C7: at `T = u64` with the integer codec, both variants
round-trip. -/
theorem pip_c7_witness :
    decodeField (decodeUIntFin 8) (encodeField (fun n : W64 => encodeNat n.val)
      (.BackReference 1 2)) = .ok (.BackReference 1 2) ∧
    decodeField (decodeUIntFin 8) (encodeField (fun n : W64 => encodeNat n.val)
      (.Scalar 5)) = .ok (.Scalar 5) :=
  ⟨(pip_c7_field_codec W64 _ _ (decodeUIntFin_encode 8)).2.2 _,
   (pip_c7_field_codec W64 _ _ (decodeUIntFin_encode 8)).2.2 _⟩

/-- C8.  `HashOrNumber::decode` first attempts the 32-byte hash form and
returns `Hash(h)` on success; only if that attempt fails does it attempt the
integer form, returning `Number`; encoding writes the 32-byte string for a
hash and the integer encoding for a number. -/
theorem pip_c8_hash_or_number (it : RlpItem) :
    (∀ h : H256, decodeHashFin 32 it = .ok h → decodeHashOrNumber it = .ok (.Hash h)) ∧
    (∀ e : DecoderError, decodeHashFin 32 it = .error e →
      decodeHashOrNumber it = (decodeUIntFin 8 it).map HashOrNumber.Number) ∧
    (∀ h : H256, encodeHashOrNumber (.Hash h) = encodeHashFin 32 h) ∧
    (∀ n : W64, encodeHashOrNumber (.Number n) = encodeNat n.val) := by
  refine ⟨?_, ?_, fun _ => rfl, fun _ => rfl⟩
  · intro h hh
    simp [decodeHashOrNumber, hh]
  · intro e he
    simp [decodeHashOrNumber, he]

/-- Witness for C8: on the encoding of the number 7, hash decoding fails
(the string is shorter than 32 bytes) and the fallback yields `Number 7`. -/
theorem pip_c8_witness :
    decodeHashOrNumber (encodeNat (7 : Nat)) =
      (decodeUIntFin 8 (encodeNat (7 : Nat))).map HashOrNumber.Number :=
  (pip_c8_hash_or_number (encodeNat (7 : Nat))).2.1 .RlpIsTooShort (by rfl)

/-- C3.  For every response and the request kind it answers, the
`(slot, output kind)` pairs written by `fill_outputs` are exactly those
declared by the request's `note_outputs`, in the same slot order; and the
declarations are the fixed table of the spec (`HeaderProof`: slot 0 `Hash`;
`TransactionIndex`: slot 0 `Number`, slot 1 `Hash`; `Account`: slot 0 and 1
`Hash`; `Storage`: slot 0 `Hash`; all other kinds: nothing). -/
theorem pip_c3_output_typing (req : Request) (resp : Response)
    (hk : req.kind = resp.kind) :
    (resp.fill_outputs.map (fun p => (p.1, p.2.kind)) = req.note_outputs) ∧
    req.note_outputs = specDeclaredOutputs req.kind := by
  cases req <;> cases resp <;>
    simp_all [Request.kind, Response.kind, Request.note_outputs, Response.fill_outputs,
      header.note_outputs, header_proof.note_outputs, transaction_index.note_outputs,
      block_receipts.note_outputs, block_body.note_outputs, account.note_outputs,
      storage.note_outputs, contract_code.note_outputs, execution.note_outputs,
      epoch_signal.note_outputs,
      header.fill_outputs, header_proof.fill_outputs, transaction_index.fill_outputs,
      block_receipts.fill_outputs, block_body.fill_outputs, account.fill_outputs,
      storage.fill_outputs, contract_code.fill_outputs, execution.fill_outputs,
      epoch_signal.fill_outputs, Output.kind, specDeclaredOutputs]

/-- Witness for C3: a `HeaderProof` response against a `HeaderProof` request
writes exactly the declared slot-0 hash. -/
theorem pip_c3_witness :
    (Response.fill_outputs (.HeaderProof ⟨[], 0, 0⟩)).map (fun p => (p.1, p.2.kind)) =
      Request.note_outputs (.HeaderProof ⟨.Scalar 5⟩) :=
  (pip_c3_output_typing (.HeaderProof ⟨.Scalar 5⟩) (.HeaderProof ⟨[], 0, 0⟩) rfl).1

/-- Inversion of `Except.map` returning `ok`. -/
theorem map_ok_inv {ε α β : Type} {x : Except ε α} {g : α → β} {c : β}
    (h : x.map g = .ok c) : ∃ a, x = .ok a ∧ c = g a := by
  cases x with
  | ok a => exact ⟨a, rfl, by simpa [Except.map] using h.symm⟩
  | error e => simp [Except.map] at h

/-- C10.  Every mutating or consuming operation on a request preserves its
kind: `fill` and `adjust_refs` leave `kind()` unchanged, and a successful
`complete()` yields a complete request of the same kind. -/
theorem pip_c10_kind_preserved (oracle : Oracle) (m : W64 → W64) (r : Request) :
    (Request.fill oracle r).kind = r.kind ∧
    (Request.adjust_refs m r).kind = r.kind ∧
    (∀ c, Request.complete r = .ok c → c.kind = r.kind) := by
  cases r <;>
    exact ⟨rfl, rfl, fun c hc => by
      obtain ⟨a, -, rfl⟩ := map_ok_inv hc
      rfl⟩

/-- Witness for C10: completing a scalar `Body` request yields a complete
request of kind `Body`. -/
theorem pip_c10_witness :
    CompleteRequest.kind (.Body ⟨77⟩) = Request.kind (.Body ⟨.Scalar 77⟩) :=
  (pip_c10_kind_preserved (fun _ _ => .error .mk) id (.Body ⟨.Scalar 77⟩)).2.2
    (.Body ⟨77⟩) rfl

/-- C4.  For every incomplete request, `complete()` fails with `NoSuchOutput`
iff at least one field is still a back-reference; when it succeeds it yields
the complete request carrying exactly the scalar values, unchanged (so that
re-wrapping them as scalars reproduces the original request). -/
theorem pip_c4_complete_iff (r : Request) :
    (Request.complete r = .error .mk ↔ r.hasBackRef = true) ∧
    (∀ c, Request.complete r = .ok c → c.toIncomplete = r) := by
  cases r with
  | Headers x =>
    obtain ⟨s, sk, mx, rv⟩ := x
    cases s <;>
      simp [Request.complete, header.complete, Field.into_scalar, Request.hasBackRef,
        Field.isBackRef, Except.map, CompleteRequest.toIncomplete]
  | HeaderProof x =>
    obtain ⟨n⟩ := x
    cases n <;>
      simp [Request.complete, header_proof.complete, Field.into_scalar, Request.hasBackRef,
        Field.isBackRef, Except.map, CompleteRequest.toIncomplete]
  | TransactionIndex x =>
    obtain ⟨h⟩ := x
    cases h <;>
      simp [Request.complete, transaction_index.complete, Field.into_scalar,
        Request.hasBackRef, Field.isBackRef, Except.map, CompleteRequest.toIncomplete]
  | Receipts x =>
    obtain ⟨h⟩ := x
    cases h <;>
      simp [Request.complete, block_receipts.complete, Field.into_scalar,
        Request.hasBackRef, Field.isBackRef, Except.map, CompleteRequest.toIncomplete]
  | Body x =>
    obtain ⟨h⟩ := x
    cases h <;>
      simp [Request.complete, block_body.complete, Field.into_scalar, Request.hasBackRef,
        Field.isBackRef, Except.map, CompleteRequest.toIncomplete]
  | Account x =>
    obtain ⟨bh, ah⟩ := x
    cases bh <;> cases ah <;>
      simp [Request.complete, account.complete, Field.into_scalar, Request.hasBackRef,
        Field.isBackRef, Except.map, CompleteRequest.toIncomplete]
  | Storage x =>
    obtain ⟨bh, ah, kh⟩ := x
    cases bh <;> cases ah <;> cases kh <;>
      simp [Request.complete, storage.complete, Field.into_scalar, Request.hasBackRef,
        Field.isBackRef, Except.map, CompleteRequest.toIncomplete]
  | Code x =>
    obtain ⟨bh, ch⟩ := x
    cases bh <;> cases ch <;>
      simp [Request.complete, contract_code.complete, Field.into_scalar, Request.hasBackRef,
        Field.isBackRef, Except.map, CompleteRequest.toIncomplete]
  | Execution x =>
    obtain ⟨bh, fr, ac, g, gp, v, d⟩ := x
    cases bh <;>
      simp [Request.complete, execution.complete, Field.into_scalar, Request.hasBackRef,
        Field.isBackRef, Except.map, CompleteRequest.toIncomplete]
  | Signal x =>
    obtain ⟨h⟩ := x
    cases h <;>
      simp [Request.complete, epoch_signal.complete, Field.into_scalar, Request.hasBackRef,
        Field.isBackRef, Except.map, CompleteRequest.toIncomplete]

/-- Witness for C4: completing an all-scalar `Account` request succeeds and
re-wrapping the complete values reproduces the original request. -/
theorem pip_c4_witness :
    CompleteRequest.toIncomplete (.Account ⟨3, 4⟩) =
      Request.Account ⟨.Scalar 3, .Scalar 4⟩ :=
  (pip_c4_complete_iff (.Account ⟨.Scalar 3, .Scalar 4⟩)).2 (.Account ⟨3, 4⟩) rfl

/-- C1 (counterexample).  The round trip does not hold for *every* `Response`
value: a `Headers` response whose raw blob is not a valid header encoding
(here, a byte-string node) fails the decoder's validity check, so decoding
its encoding does not return it. -/
theorem pip_c1_counterexample :
    decodeResponseEnvelope (encodeResponseEnvelope
        (Response.Headers ⟨[RlpItem.str []]⟩)) ≠
      .ok (Response.Headers ⟨[RlpItem.str []]⟩) := by
  intro h
  have he : decodeResponseEnvelope (encodeResponseEnvelope
      (Response.Headers ⟨[RlpItem.str []]⟩)) =
      .error (.Custom "invalid header blob") := rfl
  rw [he] at h
  exact Except.noConfusion h

/-- C1 (amended).  Decoding the encoding of every `Request` yields it back;
decoding the encoding of a `Response` yields it back whenever its raw blobs
(header blobs of a `Headers` response, the body blob of a `Body` response —
the only raw blobs) pass the decoder's validity checks; and both envelopes
are the two-element list `[kind_tag, body]`, so the round trip preserves the
kind tag. -/
theorem pip_c1_roundtrip :
    (∀ req : Request, decodeRequest (encodeRequest req) = .ok req) ∧
    (∀ req : Request, encodeRequest req = .list [encodeKind req.kind, req.encodeBody]) ∧
    (∀ resp : Response, resp.blobsValid = true →
      decodeResponseEnvelope (encodeResponseEnvelope resp) = .ok resp) ∧
    (∀ resp : Response,
      encodeResponseEnvelope resp = .list [encodeKind resp.kind, resp.encodeBody]) :=
  ⟨decodeRequest_encodeRequest, fun _ => rfl, decodeResponseEnvelope_encode, fun _ => rfl⟩

/-- Witness for C1: a `Headers` response whose single blob is a (trivially
valid) list node round-trips through the envelope codec. -/
theorem pip_c1_witness :
    decodeResponseEnvelope (encodeResponseEnvelope
        (Response.Headers ⟨[RlpItem.list []]⟩)) =
      .ok (Response.Headers ⟨[RlpItem.list []]⟩) :=
  pip_c1_roundtrip.2.2.1 (Response.Headers ⟨[RlpItem.list []]⟩) rfl

end Pip
